import Mathlib

/-!
# clap: command-line argument parser (`clap.h`)

A shallow embedding of the parser of `clap.h` and theorems about it.

Modelling conventions.

* A C string is the list of its characters before the terminating NUL
  (`CString`); a nullable `const char*` is an `Option CString`.  Pointers into
  an argument (`strchr` results, `&current_arg[k]`) are the suffix they point
  at.
* The global `handler` is passed explicitly: every operation takes the
  handler and returns the new one.
* `flags[0 .. flag_count)` and `subcommands[0 .. subcommand_count)` are lists;
  `flag_count` and `subcommand_count` are their lengths.  `CLAPflag*` and
  `CLAPsubcommand*` are `Option Nat`: `none` is `NULL`, `some i` is the address
  of entry `i`.
* `size_t` counters are natural numbers.  `arg_index` is incremented only
  while it is below `argc`, an `int`, so its increments cannot wrap.  The
  increments of `current_arg_index` wrap at `SIZE_MAX`: `clapParse` and its
  parts compute them in the natural numbers, `clapParseSized` and its parts
  compute them modulo `SIZE_MAX + 1`, and the two agree on every state whose
  `current_arg_index` is below `SIZE_MAX`, which includes every state whose
  offset lies inside an argument.
* The functions `clapResetFlags` and `clapResetSubcommands` only zero the
  counts and leave the entries readable through a stale `current_flag`; a
  list has no such entries, and the two functions are not embedded.
* `argc` is a natural number; the theorems take it to be the length of `argv`.
* `printf` diagnostics are not part of the state and are omitted.
-/

namespace Clap

/-- A C string without its terminating NUL. -/
abbrev CString := List Char

/-- The terminating NUL character. -/
def NUL : Char := Char.ofNat 0

/-- Macro `CLAP_FLAG_CAPACITY`, 256 unless the includer defines it. -/
def CLAP_FLAG_CAPACITY : Nat := 256

/-- Macro `CLAP_SUBCOMMAND_CAPACITY`, 256 unless the includer defines it. -/
def CLAP_SUBCOMMAND_CAPACITY : Nat := 256

/-- Macro `CLAP_FLAG_NO_SHORT`, the character 0. -/
def CLAP_FLAG_NO_SHORT : Char := NUL

/-- The enumeration `CLAPflagArgType`. -/
inductive CLAPflagArgType where
  | CLAP_FLAG_NO_ARG
  | CLAP_FLAG_OPT_ARG
  | CLAP_FLAG_REQ_ARG
  deriving DecidableEq, Repr

open CLAPflagArgType

/-- The struct `CLAPflag`; `long_name = none` is `CLAP_FLAG_NO_LONG`. -/
structure CLAPflag where
  long_name : Option CString
  short_name : Char
  arg_type : CLAPflagArgType
  subcommand_name : Option CString
  deriving DecidableEq, Repr

/-- The struct `CLAPsubcommand`. -/
structure CLAPsubcommand where
  name : CString
  deriving DecidableEq, Repr

/-- The struct `CLAPhandler`. -/
structure CLAPhandler where
  flags : List CLAPflag
  subcommands : List CLAPsubcommand
  current_arg : Option CString
  current_arg_len : Nat
  arg_index : Nat
  current_arg_index : Nat
  current_flag : Option Nat
  current_flag_arg : Option CString
  subcommand : Option Nat
  current_non_opt : Option CString
  next_is_no_opt : Bool
  deriving DecidableEq, Repr

/-- The field `handler.flag_count`. -/
def CLAPhandler.flag_count (h : CLAPhandler) : Nat := h.flags.length

/-- The field `handler.subcommand_count`. -/
def CLAPhandler.subcommand_count (h : CLAPhandler) : Nat := h.subcommands.length

/-- The zero-initialised `static CLAPhandler handler` holding the given
registrations. -/
def zeroHandler (flags : List CLAPflag) (subcommands : List CLAPsubcommand) : CLAPhandler :=
  { flags := flags, subcommands := subcommands, current_arg := none, current_arg_len := 0,
    arg_index := 0, current_arg_index := 0, current_flag := none, current_flag_arg := none,
    subcommand := none, current_non_opt := none, next_is_no_opt := false }

/-! ## libc helpers -/

/-- The libc call `strlen(s)`. -/
def strlen (s : CString) : Nat := s.length

/-- The read `s[i]`: the character at offset `i`; offset `strlen s` holds the
NUL.  Offsets past the terminator are outside the array in C; the model reads
NUL there. -/
def charAt (s : CString) (i : Nat) : Char := s.getD i NUL

/-- The libc call `strchr(s, c)`: the suffix of `s` that starts at the first
`c`, or `NULL`. -/
def strchr : CString → Char → Option CString
  | [], _ => none
  | x :: xs, c => if x = c then some (x :: xs) else strchr xs c

/-- The read `argv[i]`. -/
def argvAt (argv : List CString) (i : Nat) : CString := argv.getD i []

/-- The test `strcmp(a, b) == 0`. -/
def strcmpEq (a b : CString) : Bool := decide (a = b)

/-- The test `strncmp(a, b, n) == 0`: the first `n` characters agree. -/
def strncmpEq (a b : CString) (n : Nat) : Bool := decide (a.take n = b.take n)

/-- Index of the first element satisfying `p`: the `for (i = 0; i < count; i++)`
loops of the parser, which `continue` on elements failing the test and stop at
the first one passing it. -/
def firstIdx {α : Type} (p : α → Bool) : List α → Option Nat
  | [] => none
  | x :: xs => if p x then some 0 else (firstIdx p xs).map (· + 1)

/-! ## Dereferencing -/

/-- The flag `*handler.current_flag` for `current_flag = &flags[i]`. -/
def CLAPhandler.flagAt (h : CLAPhandler) (i : Nat) : CLAPflag :=
  h.flags.getD i ⟨none, CLAP_FLAG_NO_SHORT, CLAP_FLAG_NO_ARG, none⟩

/-- The name `handler.subcommand->name` for `subcommand = &subcommands[k]`. -/
def CLAPhandler.subcommandNameAt (h : CLAPhandler) (k : Nat) : CString :=
  (h.subcommands.getD k ⟨[]⟩).name

/-! ## Parser -/

/-- The three scope tests of both flag loops (lines 234-241 and 323-330):
`true` when the loop `continue`s past `flag`. -/
def scopeSkips (h : CLAPhandler) (flag : CLAPflag) : Bool :=
  match h.subcommand, flag.subcommand_name with
  | none, some _ => true
  | some _, none => true
  | some k, some n => !strcmpEq (h.subcommandNameAt k) n
  | none, none => false

/-- The long-flag loop test (lines 231-243): `flag` has a long name, is in
scope, and `strncmp(flag->long_name, &current_arg[2], strlen(flag->long_name))`
is 0. -/
def longCandidate (h : CLAPhandler) (text : CString) (flag : CLAPflag) : Bool :=
  match flag.long_name with
  | none => false
  | some ln => !scopeSkips h flag && strncmpEq ln text (strlen ln)

/-- The short-flag loop test (lines 320-332). -/
def shortCandidate (h : CLAPhandler) (c : Char) (flag : CLAPflag) : Bool :=
  !decide (flag.short_name = CLAP_FLAG_NO_SHORT) && !scopeSkips h flag
    && decide (flag.short_name = c)

/-- Function `clapMoveToNextCharOrNextArg` (lines 183-191), with
`current_arg_index++` computed in the natural numbers. -/
def clapMoveToNextCharOrNextArg (h : CLAPhandler) : CLAPhandler :=
  let h := { h with current_arg_index := h.current_arg_index + 1 }
  if h.current_arg_index ≥ h.current_arg_len then
    { h with current_arg_index := 0, arg_index := h.arg_index + 1 }
  else h

/-- Lines 223-225: `arg = strchr(current_arg, '=')`, advanced past the `=`
when it is not `NULL`. -/
def attachedArg (cur : CString) : Option CString := (strchr cur '=').map List.tail

/-- The test `arg && *arg != '\0'`. -/
def nonEmptyArg (arg : Option CString) : Bool :=
  match arg with
  | some (_ :: _) => true
  | _ => false

/-- Body of the long-flag loop for the first matching flag `&flags[i]`
(lines 245-294). -/
def longFlagBody (argc : Nat) (argv : List CString) (h : CLAPhandler) (i : Nat)
    (arg : Option CString) : CLAPhandler :=
  let h := { h with current_flag := some i }
  let h :=
    match (h.flagAt i).arg_type with
    | CLAP_FLAG_NO_ARG =>
      let h := if nonEmptyArg arg then { h with current_flag := none } else h
      { h with current_flag_arg := none }
    | CLAP_FLAG_OPT_ARG =>
      if nonEmptyArg arg then { h with current_flag_arg := arg }
      else { h with current_flag_arg := none }
    | CLAP_FLAG_REQ_ARG =>
      if nonEmptyArg arg then { h with current_flag_arg := arg }
      else if h.arg_index + 1 ≥ argc then
        { h with current_flag := none, arg_index := h.arg_index + 1 }
      else
        { h with current_flag_arg := some (argvAt argv (h.arg_index + 1)),
                 arg_index := h.arg_index + 1 }
  { h with arg_index := h.arg_index + 1 }

/-- Body of the short-flag loop for the first matching flag `&flags[i]`
(lines 334-371). -/
def shortFlagBody (argc : Nat) (argv : List CString) (h : CLAPhandler) (i : Nat)
    (cur : CString) : CLAPhandler :=
  let h := { h with current_flag := some i }
  match (h.flagAt i).arg_type with
  | CLAP_FLAG_NO_ARG => clapMoveToNextCharOrNextArg h
  | CLAP_FLAG_OPT_ARG =>
    { h with
      current_flag_arg :=
        if h.current_arg_index = h.current_arg_len - 1 then none
        else some (cur.drop (h.current_arg_index + 1)),
      current_arg_index := 0,
      arg_index := h.arg_index + 1 }
  | CLAP_FLAG_REQ_ARG =>
    if h.current_arg_index = h.current_arg_len - 1 ∧ h.arg_index + 1 ≥ argc then
      { h with current_flag := none, arg_index := h.arg_index + 1 }
    else
      let h :=
        if h.current_arg_index = h.current_arg_len - 1 then
          { h with current_flag_arg := some (argvAt argv (h.arg_index + 1)),
                   arg_index := h.arg_index + 1 }
        else
          { h with current_flag_arg := some (cur.drop (h.current_arg_index + 1)) }
      { h with current_arg_index := 0, arg_index := h.arg_index + 1 }

/-- Lines 198-199: `current_arg = argv[arg_index]` and
`current_arg_len = strlen(current_arg)`. -/
def fetchArg (argv : List CString) (h : CLAPhandler) : CLAPhandler :=
  { h with current_arg := some (argvAt argv h.arg_index),
           current_arg_len := strlen (argvAt argv h.arg_index) }

/-- Function `clapParse(argc, argv)` (lines 193-408), with the counters
incremented in the natural numbers.  The result is the returned
`uint8_t` (`true` for `CLAP_TRUE`) and the handler after the call. -/
def clapParse (argc : Nat) (argv : List CString) (h : CLAPhandler) : Bool × CLAPhandler :=
  if h.arg_index ≥ argc then (false, h)
  else
    let cur := argvAt argv h.arg_index
    let h := fetchArg argv h
    if h.current_arg_len < 2 then
      (true, { h with current_flag := none, current_non_opt := some cur,
                      arg_index := h.arg_index + 1 })
    else if !h.next_is_no_opt && decide (charAt cur 0 = '-') then
      let h := { h with current_non_opt := none }
      if charAt cur 1 = '-' then
        if h.current_arg_len = 2 then
          (true, { h with next_is_no_opt := true, current_flag := none,
                          arg_index := h.arg_index + 1 })
        else
          let arg := attachedArg cur
          match firstIdx (longCandidate h (cur.drop 2)) h.flags with
          | some i => (true, longFlagBody argc argv h i arg)
          | none => (true, { h with arg_index := h.arg_index + 1 })
      else if h.current_arg_index = 0 then
        (true, { h with current_flag := none, current_arg_index := h.current_arg_index + 1 })
      else
        let flag_short_name := charAt cur h.current_arg_index
        match firstIdx (shortCandidate h flag_short_name) h.flags with
        | some i => (true, shortFlagBody argc argv h i cur)
        | none => (true, clapMoveToNextCharOrNextArg { h with current_flag := none })
    else
      let h := { h with next_is_no_opt := false }
      match (if h.subcommand.isNone then
               firstIdx (fun sc => strcmpEq sc.name cur) h.subcommands
             else none) with
      | some k =>
        (true, { h with subcommand := some k, current_flag := none, current_non_opt := none,
                        arg_index := h.arg_index + 1 })
      | none =>
        (true, { h with current_non_opt := some cur, current_flag := none,
                        arg_index := h.arg_index + 1 })

/-- Function `clapResetParser` (lines 420-430). -/
def clapResetParser (h : CLAPhandler) : CLAPhandler :=
  { h with arg_index := 0, current_arg := none, current_arg_index := 0, current_flag := none,
           current_flag_arg := none, subcommand := none, current_non_opt := none,
           next_is_no_opt := false }

/-! ## The character offset in `size_t` arithmetic -/

/-- The enumerator with the given integer value, for the values 0, 1 and 2
that pass the range check of `clapRegisterFlag`. -/
def CLAPflagArgType.ofInt (n : Int) : CLAPflagArgType :=
  if n = 0 then CLAP_FLAG_NO_ARG else if n = 1 then CLAP_FLAG_OPT_ARG else CLAP_FLAG_REQ_ARG

/-- Lines 80-90: `long_name` is not `NULL` and has a character `c` with
`!isalnum(c) && c != '-'`. -/
def badLongName (long_name : Option CString) : Bool :=
  match long_name with
  | none => false
  | some ln => ln.any (fun c => !c.isAlphanum && !decide (c = '-'))

/-- Function `clapRegisterFlag(long_name, short_name, arg_type, subcommand_name)`
(lines 66-109); `arg_type` is the integer value passed for the enumeration. -/
def clapRegisterFlag (h : CLAPhandler) (long_name : Option CString) (short_name : Char)
    (arg_type : Int) (subcommand_name : Option CString) : CLAPhandler :=
  if h.flag_count ≥ CLAP_FLAG_CAPACITY then h
  else if long_name = none ∧ short_name = CLAP_FLAG_NO_SHORT then h
  else if badLongName long_name then h
  else if short_name ≠ CLAP_FLAG_NO_SHORT ∧ short_name.isAlpha = false then h
  else if arg_type < 0 ∨ arg_type > 2 then h
  else
    { h with flags := h.flags ++
        [⟨long_name, short_name, CLAPflagArgType.ofInt arg_type, subcommand_name⟩] }

/-- Function `clapRegisterSubcommand(name)` (lines 111-121). -/
def clapRegisterSubcommand (h : CLAPhandler) (name : CString) : CLAPhandler :=
  if h.subcommand_count ≥ CLAP_SUBCOMMAND_CAPACITY then h
  else { h with subcommands := h.subcommands ++ [⟨name⟩] }

/-! ## Query surface -/

/-- Function `clapParsedFlag(long_name, short_name)` (lines 123-132). -/
def clapParsedFlag (h : CLAPhandler) (long_name : Option CString) (short_name : Char) : Bool :=
  match h.current_flag with
  | none => false
  | some i =>
    if h.subcommand.isSome then false
    else
      match (h.flagAt i).long_name, long_name with
      | some a, some b => strcmpEq a b && decide ((h.flagAt i).short_name = short_name)
      | none, none => decide ((h.flagAt i).short_name = short_name)
      | _, _ => false

/-- Function `clapParsedSubcommandFlag(subcommand_name, long_name, short_name)`
(lines 134-143).  `none` is the undefined `strcmp` on a `NULL` long name at
line 142. -/
def clapParsedSubcommandFlag (h : CLAPhandler) (subcommand_name : CString)
    (long_name : Option CString) (short_name : Char) : Option Bool :=
  match h.current_flag, h.subcommand with
  | none, _ => some false
  | _, none => some false
  | some i, some k =>
    if !strcmpEq (h.subcommandNameAt k) subcommand_name then some false
    else
      match (h.flagAt i).long_name, long_name with
      | some a, some b => some (strcmpEq a b && decide ((h.flagAt i).short_name = short_name))
      | _, _ => none

/-- Function `clapParsedSubcommand(name)` (lines 145-151). -/
def clapParsedSubcommand (h : CLAPhandler) (name : Option CString) : Bool :=
  match h.subcommand, name with
  | some k, some n => strcmpEq (h.subcommandNameAt k) n
  | _, _ => false

/-- Function `clapParsedNonOpt(&arg)` (lines 153-160): `none` is `CLAP_FALSE`, `some a`
is `CLAP_TRUE` with `*arg = a`. -/
def clapParsedNonOpt (h : CLAPhandler) : Option CString := h.current_non_opt

/-- Function `clapGetArg()` (lines 162-181). -/
def clapGetArg (h : CLAPhandler) : Option CString :=
  match h.current_flag with
  | none => none
  | some i =>
    match (h.flagAt i).arg_type with
    | CLAP_FLAG_NO_ARG => none
    | _ => h.current_flag_arg

/-! ## Runs of the parser -/

/-- The handler after `n` calls `clapParse(argc, argv)` with `argc` the length
of `argv`. -/
def parseN : Nat → List CString → CLAPhandler → CLAPhandler
  | 0, _, h => h
  | n + 1, argv, h => parseN n argv (clapParse argv.length argv h).2

/-- What the host observes after one call: the return value and the answers of
the query surface. -/
structure Observation where
  ret : Bool
  flag : Option Nat
  value : Option CString
  non_opt : Option CString
  subcommand : Option Nat
  deriving DecidableEq, Repr

/-- The observation made after a call that returned `r`. -/
def observe (r : Bool × CLAPhandler) : Observation :=
  { ret := r.1, flag := r.2.current_flag, value := clapGetArg r.2,
    non_opt := clapParsedNonOpt r.2, subcommand := r.2.subcommand }

/-- The host loop `while (clapParse(argc, argv)) ...`, run for at most `fuel`
calls: the observations after each call, the last one being that of the call
that returned `CLAP_FALSE` when the fuel sufficed. -/
def parseTrace : Nat → List CString → CLAPhandler → List Observation
  | 0, _, _ => []
  | fuel + 1, argv, h =>
    observe (clapParse argv.length argv h) ::
      (if (clapParse argv.length argv h).1 then
         parseTrace fuel argv (clapParse argv.length argv h).2
       else [])

/-- Number of calls that suffices to exhaust `argv` from `h`: one call plus
one per character for the argument under the cursor, and the same for every
later argument. -/
def callsLeft (argv : List CString) (h : CLAPhandler) : Nat :=
  if h.arg_index < argv.length then
    (if h.current_arg_index < (argvAt argv h.arg_index).length then
       (argvAt argv h.arg_index).length - h.current_arg_index
     else 1)
    + ((argv.drop (h.arg_index + 1)).map (fun a => a.length + 1)).sum
  else 0

/-- States reached from a reset parser by calls of `clapParse`. -/
inductive Reachable : CLAPhandler → Prop where
  | reset (h : CLAPhandler) : Reachable (clapResetParser h)
  | step (argv : List CString) (h : CLAPhandler) :
      Reachable h → Reachable (clapParse argv.length argv h).2

/-! ## Scope, in the words of the specification -/

/-- A flag is visible in the current scope: a global flag when no subcommand
is active, a subcommand-scoped flag under the active subcommand of that name. -/
def visibleInScope (h : CLAPhandler) (f : CLAPflag) : Prop :=
  match f.subcommand_name, h.subcommand with
  | none, none => True
  | some n, some k => h.subcommandNameAt k = n
  | _, _ => False

/-- A flag that has a long name, is visible in the current scope, and whose
long name is a leading segment of `text`. -/
def longNameMatches (h : CLAPhandler) (text : CString) (f : CLAPflag) : Prop :=
  ∃ ln, f.long_name = some ln ∧ visibleInScope h f ∧ ln <+: text

/-- A flag whose short name is the character `c`, visible in the current
scope. -/
def shortNameMatches (h : CLAPhandler) (c : Char) (f : CLAPflag) : Prop :=
  f.short_name ≠ CLAP_FLAG_NO_SHORT ∧ visibleInScope h f ∧ f.short_name = c

/-! ## Example registries and argument vectors -/

/-- Text of a string literal as a C string. -/
def cstr (s : String) : CString := s.toList

/-- Registry with the single subcommand `build`. -/
def buildOnly : CLAPhandler := zeroHandler [] [⟨cstr "build"⟩]

/-- Registry with the global long flag `--foo` (short `f`, no argument). -/
def fooOnly : CLAPhandler :=
  zeroHandler [⟨some (cstr "foo"), 'f', CLAP_FLAG_NO_ARG, none⟩] []

/-- Registry with the global flag `--out` (short `o`, optional argument). -/
def outOptional : CLAPhandler :=
  zeroHandler [⟨some (cstr "out"), 'o', CLAP_FLAG_OPT_ARG, none⟩] []

/-- Registry with the global flag `--output` (short `o`, required argument). -/
def outputRequired : CLAPhandler :=
  zeroHandler [⟨some (cstr "output"), 'o', CLAP_FLAG_REQ_ARG, none⟩] []

/-- Registry with short flags `a`, `b` (no argument) and `c` (optional
argument). -/
def abcFlags : CLAPhandler :=
  zeroHandler [⟨none, 'a', CLAP_FLAG_NO_ARG, none⟩, ⟨none, 'b', CLAP_FLAG_NO_ARG, none⟩,
               ⟨none, 'c', CLAP_FLAG_OPT_ARG, none⟩] []

/-- Registry with `--out` registered before `--output`. -/
def outThenOutput : CLAPhandler :=
  zeroHandler [⟨some (cstr "out"), 'o', CLAP_FLAG_NO_ARG, none⟩,
               ⟨some (cstr "output"), 'O', CLAP_FLAG_NO_ARG, none⟩] []

/-- Registry with `--output` registered before `--out`. -/
def outputThenOut : CLAPhandler :=
  zeroHandler [⟨some (cstr "output"), 'O', CLAP_FLAG_NO_ARG, none⟩,
               ⟨some (cstr "out"), 'o', CLAP_FLAG_NO_ARG, none⟩] []

/-- Registry with the subcommand `build`, a flag `--jobs`/`j` under `build`
and a global flag `--verbose`/`v`. -/
def buildJobs : CLAPhandler :=
  zeroHandler [⟨some (cstr "jobs"), 'j', CLAP_FLAG_REQ_ARG, some (cstr "build")⟩,
               ⟨some (cstr "verbose"), 'v', CLAP_FLAG_NO_ARG, none⟩] [⟨cstr "build"⟩]

/-- Registry with the subcommands `build` and `-x`. -/
def buildAndDashX : CLAPhandler := zeroHandler [] [⟨cstr "build"⟩, ⟨cstr "-x"⟩]

/-- Registry with the subcommand `build` and a flag registered under `build`
with the short name `j` only. -/
def buildShortOnly : CLAPhandler :=
  zeroHandler [⟨none, 'j', CLAP_FLAG_NO_ARG, some (cstr "build")⟩] [⟨cstr "build"⟩]

/-- Registry with the subcommands `x` and `run`. -/
def shortAndLongSub : CLAPhandler := zeroHandler [] [⟨cstr "x"⟩, ⟨cstr "run"⟩]

/-! ## Runs over one argument vector -/

/-- States reached from a reset parser by calls of `clapParse` that are all
given the same `argv`, with `argc` its length. -/
inductive ReachableOver (argv : List CString) : CLAPhandler → Prop where
  | reset (h : CLAPhandler) : ReachableOver argv (clapResetParser h)
  | step (h : CLAPhandler) :
      ReachableOver argv h → ReachableOver argv (clapParse argv.length argv h).2

/-! ## Attached values, in the words of the specification -/

/-- The text after the first `=` of a token, if the token has an `=`. -/
def attachedValue (token : CString) : Option CString :=
  match token.dropWhile (fun c => c != '=') with
  | [] => none
  | _ :: v => some v

/-! ## Registration, in the words of the specification -/

/-- The integer value of an enumerator. -/
def CLAPflagArgType.toInt : CLAPflagArgType → Int
  | CLAP_FLAG_NO_ARG => 0
  | CLAP_FLAG_OPT_ARG => 1
  | CLAP_FLAG_REQ_ARG => 2

/-- The conditions under which a registration is valid: room in the table, at
least one of the two names present, a present long name made of alphanumeric
characters and hyphens, a present short name alphabetic, and an arity that is
one of the three enumerators. -/
def validRegistration (h : CLAPhandler) (long_name : Option CString) (short_name : Char)
    (arg_type : Int) : Prop :=
  h.flag_count < CLAP_FLAG_CAPACITY ∧
  (long_name ≠ none ∨ short_name ≠ CLAP_FLAG_NO_SHORT) ∧
  (∀ ln, long_name = some ln → ∀ c ∈ ln, c.isAlphanum = true ∨ c = '-') ∧
  (short_name ≠ CLAP_FLAG_NO_SHORT → short_name.isAlpha = true) ∧
  (arg_type = 0 ∨ arg_type = 1 ∨ arg_type = 2)

/-- The arguments of one call of `clapRegisterFlag`. -/
structure FlagRequest where
  long_name : Option CString
  short_name : Char
  arg_type : Int
  subcommand_name : Option CString
  deriving DecidableEq, Repr

/-- A sequence of `clapRegisterFlag` calls, in order. -/
def registerFlags : List FlagRequest → CLAPhandler → CLAPhandler
  | [], h => h
  | r :: rs, h =>
    registerFlags rs (clapRegisterFlag h r.long_name r.short_name r.arg_type r.subcommand_name)

/-- The names of a registered flag are well formed: at least one of the two
is present, a present long name consists of characters of `[A-Za-z0-9-]`, and
a present short name is alphabetic. -/
def namesWellFormed (f : CLAPflag) : Prop :=
  (f.long_name ≠ none ∨ f.short_name ≠ CLAP_FLAG_NO_SHORT) ∧
  (∀ ln, f.long_name = some ln → ∀ c ∈ ln, c.isAlphanum = true ∨ c = '-') ∧
  (f.short_name ≠ CLAP_FLAG_NO_SHORT → f.short_name.isAlpha = true)

/-! ## The loops -/

section Loops

variable {α : Type} (p : α → Bool)

theorem firstIdx_eq_none_iff (l : List α) : firstIdx p l = none ↔ ∀ x ∈ l, p x = false := by
  induction l with
  | nil => simp [firstIdx]
  | cons a l ih =>
    by_cases ha : p a = true
    · simp [firstIdx, ha]
    · simp [firstIdx, ha, ih]

theorem firstIdx_eq_some_iff (l : List α) (i : Nat) :
    firstIdx p l = some i ↔
      (∃ x, l[i]? = some x ∧ p x = true) ∧ ∀ j x, j < i → l[j]? = some x → p x = false := by
  induction l generalizing i with
  | nil => simp [firstIdx]
  | cons a l ih =>
    by_cases ha : p a = true
    · simp only [firstIdx, ha, if_true, Option.some.injEq]
      constructor
      · rintro rfl
        exact ⟨⟨a, by simp, ha⟩, fun j x hj => absurd hj (Nat.not_lt_zero j)⟩
      · rintro ⟨_, hmin⟩
        rcases Nat.eq_zero_or_pos i with h0 | hpos
        · exact h0.symm
        · have := hmin 0 a hpos (by simp)
          simp [ha] at this
    · have ha' : p a = false := by simpa using ha
      simp only [firstIdx, ha', Bool.false_eq_true, if_false, Option.map_eq_some']
      constructor
      · rintro ⟨k, hk, rfl⟩
        obtain ⟨hx, hmin⟩ := (ih k).1 hk
        refine ⟨by simpa using hx, ?_⟩
        intro j x hj hjx
        cases j with
        | zero => simp at hjx; subst hjx; exact ha'
        | succ j => exact hmin j x (by omega) (by simpa using hjx)
      · rintro ⟨⟨x, hx, hpx⟩, hmin⟩
        cases i with
        | zero => simp at hx; subst hx; simp [ha'] at hpx
        | succ k =>
          refine ⟨k, (ih k).2 ⟨⟨x, by simpa using hx, hpx⟩, ?_⟩, rfl⟩
          intro j y hj hjy
          exact hmin (j + 1) y (by omega) (by simpa using hjy)

theorem firstIdx_isSome_of_mem (l : List α) (x : α) (hx : x ∈ l) (hp : p x = true) :
    ∃ i, firstIdx p l = some i := by
  cases hf : firstIdx p l with
  | some i => exact ⟨i, rfl⟩
  | none =>
    have := (firstIdx_eq_none_iff p l).1 hf x hx
    simp [hp] at this

end Loops

/-! ## Scope tests -/

theorem scopeSkips_eq_false_iff (h : CLAPhandler) (f : CLAPflag) :
    scopeSkips h f = false ↔ visibleInScope h f := by
  unfold scopeSkips visibleInScope
  cases f.subcommand_name <;> cases h.subcommand <;> simp [strcmpEq]

theorem scopeSkips_congr (h h' : CLAPhandler) (hs : h'.subcommand = h.subcommand)
    (hl : h'.subcommands = h.subcommands) : scopeSkips h' = scopeSkips h := by
  funext f
  simp [scopeSkips, CLAPhandler.subcommandNameAt, hs, hl]

theorem longCandidate_congr (h h' : CLAPhandler) (hs : h'.subcommand = h.subcommand)
    (hl : h'.subcommands = h.subcommands) : longCandidate h' = longCandidate h := by
  funext text f
  simp [longCandidate, scopeSkips_congr h h' hs hl]

theorem shortCandidate_congr (h h' : CLAPhandler) (hs : h'.subcommand = h.subcommand)
    (hl : h'.subcommands = h.subcommands) : shortCandidate h' = shortCandidate h := by
  funext c f
  simp [shortCandidate, scopeSkips_congr h h' hs hl]

theorem strncmpEq_strlen_iff (ln text : CString) :
    strncmpEq ln text (strlen ln) = true ↔ ln <+: text := by
  simp only [strncmpEq, strlen, List.take_length, decide_eq_true_eq]
  constructor
  · intro h
    rw [h]
    exact List.take_prefix _ _
  · intro h
    exact (List.prefix_iff_eq_take.1 h)

theorem longCandidate_iff (h : CLAPhandler) (text : CString) (f : CLAPflag) :
    longCandidate h text f = true ↔ longNameMatches h text f := by
  unfold longCandidate longNameMatches
  cases hln : f.long_name with
  | none => simp
  | some ln =>
    simp only [Bool.and_eq_true, Bool.not_eq_true', scopeSkips_eq_false_iff,
      strncmpEq_strlen_iff, Option.some.injEq, exists_eq_left']

theorem shortCandidate_iff (h : CLAPhandler) (c : Char) (f : CLAPflag) :
    shortCandidate h c f = true ↔ shortNameMatches h c f := by
  unfold shortCandidate shortNameMatches
  simp only [Bool.and_eq_true, Bool.not_eq_true', scopeSkips_eq_false_iff, decide_eq_false_iff_not,
    decide_eq_true_eq, and_assoc, ne_eq]

/-! ## Branches of `clapParse` -/

section Branches

variable (argc : Nat) (argv : List CString) (h : CLAPhandler)

theorem clapParse_exhausted (hge : argc ≤ h.arg_index) : clapParse argc argv h = (false, h) := by
  simp [clapParse, hge]

theorem clapParse_tiny (hlt : h.arg_index < argc) (hlen : (argvAt argv h.arg_index).length < 2) :
    clapParse argc argv h =
      (true, { fetchArg argv h with current_flag := none,
                                    current_non_opt := some (argvAt argv h.arg_index),
                                    arg_index := h.arg_index + 1 }) := by
  have h1 : ¬ argc ≤ h.arg_index := by omega
  simp [clapParse, h1, fetchArg, strlen, hlen]

theorem clapParse_word (hlt : h.arg_index < argc) (hlen : 2 ≤ (argvAt argv h.arg_index).length)
    (hw : h.next_is_no_opt = true ∨ charAt (argvAt argv h.arg_index) 0 ≠ '-') :
    clapParse argc argv h =
      match (if h.subcommand.isNone then
               firstIdx (fun sc => strcmpEq sc.name (argvAt argv h.arg_index)) h.subcommands
             else none) with
      | some k =>
        (true, { fetchArg argv h with next_is_no_opt := false, subcommand := some k,
                                      current_flag := none, current_non_opt := none,
                                      arg_index := h.arg_index + 1 })
      | none =>
        (true, { fetchArg argv h with next_is_no_opt := false,
                                      current_non_opt := some (argvAt argv h.arg_index),
                                      current_flag := none, arg_index := h.arg_index + 1 }) := by
  have h1 : ¬ argc ≤ h.arg_index := by omega
  have h2 : ¬ (argvAt argv h.arg_index).length < 2 := by omega
  have h3 : (!h.next_is_no_opt && decide (charAt (argvAt argv h.arg_index) 0 = '-')) = false := by
    rcases hw with hw | hw <;> simp [hw]
  simp only [clapParse, ge_iff_le, h1, if_false, fetchArg, strlen, h2, h3]
  rfl

theorem clapParse_dashdash (hlt : h.arg_index < argc) (hl : h.next_is_no_opt = false)
    (hcur : argvAt argv h.arg_index = ['-', '-']) :
    clapParse argc argv h =
      (true, { fetchArg argv h with current_non_opt := none, next_is_no_opt := true,
                                    current_flag := none, arg_index := h.arg_index + 1 }) := by
  have h1 : ¬ argc ≤ h.arg_index := by omega
  simp [clapParse, h1, fetchArg, strlen, hcur, hl, charAt]

theorem clapParse_long (hlt : h.arg_index < argc) (hl : h.next_is_no_opt = false)
    (text : CString) (hcur : argvAt argv h.arg_index = '-' :: '-' :: text) (ht : text ≠ []) :
    clapParse argc argv h =
      match firstIdx (longCandidate { fetchArg argv h with current_non_opt := none } text)
              h.flags with
      | some i =>
        (true, longFlagBody argc argv { fetchArg argv h with current_non_opt := none } i
                 (attachedArg ('-' :: '-' :: text)))
      | none =>
        (true, { fetchArg argv h with current_non_opt := none, arg_index := h.arg_index + 1 }) := by
  have h1 : ¬ argc ≤ h.arg_index := by omega
  have h2 : text.length ≠ 0 := by simpa using ht
  simp [clapParse, h1, fetchArg, strlen, hcur, hl, charAt, h2]

theorem clapParse_cluster_open (hlt : h.arg_index < argc) (hl : h.next_is_no_opt = false)
    (c : Char) (rest : CString) (hcur : argvAt argv h.arg_index = '-' :: c :: rest)
    (hc : c ≠ '-') (h0 : h.current_arg_index = 0) :
    clapParse argc argv h =
      (true, { fetchArg argv h with current_non_opt := none, current_flag := none,
                                    current_arg_index := 1 }) := by
  have h1 : ¬ argc ≤ h.arg_index := by omega
  simp [clapParse, h1, fetchArg, strlen, hcur, hl, charAt, hc, h0]

theorem clapParse_short (hlt : h.arg_index < argc) (hl : h.next_is_no_opt = false)
    (c : Char) (rest : CString) (hcur : argvAt argv h.arg_index = '-' :: c :: rest)
    (hc : c ≠ '-') (h0 : h.current_arg_index ≠ 0) :
    clapParse argc argv h =
      match firstIdx (shortCandidate { fetchArg argv h with current_non_opt := none }
                (charAt ('-' :: c :: rest) h.current_arg_index)) h.flags with
      | some i =>
        (true, shortFlagBody argc argv { fetchArg argv h with current_non_opt := none } i
                 ('-' :: c :: rest))
      | none =>
        (true, clapMoveToNextCharOrNextArg
                 { fetchArg argv h with current_non_opt := none, current_flag := none }) := by
  have h1 : ¬ argc ≤ h.arg_index := by omega
  simp [clapParse, h1, fetchArg, strlen, hcur, hl, charAt, hc, h0]

end Branches

/-! ## Progress -/

/-- C2, counterexample: with the subcommand `build` registered and no
subcommand active, the arguments `--` `build` set the latch on the first call,
and the second call activates `build` and reports no positional argument. -/
theorem dashdash_then_subcommand_activates :
    (clapParse 2 [cstr "--", cstr "build"] buildOnly).2.next_is_no_opt = true ∧
    (clapParse 2 [cstr "--", cstr "build"] buildOnly).2.subcommand = none ∧
    clapParsedSubcommand (parseN 2 [cstr "--", cstr "build"] buildOnly)
      (some (cstr "build")) = true ∧
    clapParsedNonOpt (parseN 2 [cstr "--", cstr "build"] buildOnly) = none := by
  decide

/-- C2, amended: while the latch set by `--` is on, an argument equal to a
registered subcommand name is activated as the subcommand, and not reported as
positional, when it has at least two characters and no subcommand is active;
it is reported as positional, the active subcommand staying as it was, when a
subcommand is already active or the argument has fewer than two characters. -/
theorem latched_subcommand_name (argv : List CString) (h : CLAPhandler) (sc : CLAPsubcommand)
    (hlt : h.arg_index < argv.length) (hl : h.next_is_no_opt = true)
    (hsc : sc ∈ h.subcommands) (hname : argvAt argv h.arg_index = sc.name) :
    (2 ≤ sc.name.length → h.subcommand = none →
      clapParsedSubcommand (clapParse argv.length argv h).2 (some sc.name) = true ∧
      clapParsedNonOpt (clapParse argv.length argv h).2 = none) ∧
    (sc.name.length < 2 ∨ h.subcommand ≠ none →
      clapParsedNonOpt (clapParse argv.length argv h).2 = some sc.name ∧
      (clapParse argv.length argv h).2.subcommand = h.subcommand) := by
  constructor
  · intro hlen hnone
    obtain ⟨k, hk⟩ := firstIdx_isSome_of_mem (fun s => strcmpEq s.name (argvAt argv h.arg_index))
      h.subcommands sc hsc (by simp [strcmpEq, hname])
    obtain ⟨⟨x, hx, hpx⟩, -⟩ := (firstIdx_eq_some_iff _ _ _).1 hk
    have hxn : x.name = sc.name := by simpa [strcmpEq, hname] using hpx
    rw [clapParse_word _ _ _ hlt (by rw [hname]; exact hlen) (Or.inl hl)]
    simp only [hnone, Option.isNone_none, if_true, hk]
    simp [clapParsedSubcommand, clapParsedNonOpt, CLAPhandler.subcommandNameAt,
      fetchArg, hx, hxn, strcmpEq]
  · intro hor
    by_cases hlen : sc.name.length < 2
    · rw [clapParse_tiny _ _ _ hlt (by rw [hname]; exact hlen)]
      simp [clapParsedNonOpt, fetchArg, hname]
    · have hsome : h.subcommand ≠ none := by
        rcases hor with h1 | h1
        · exact absurd h1 hlen
        · exact h1
      rw [clapParse_word _ _ _ hlt (by rw [hname]; omega) (Or.inl hl)]
      have : h.subcommand.isNone = false := by
        cases hs : h.subcommand with
        | none => exact absurd hs hsome
        | some k => rfl
      simp [this, clapParsedNonOpt, fetchArg, hname]

/-- Instance: the state after `--` in
`-- build`. -/
theorem latched_subcommand_name_witness :
    (2 ≤ (cstr "build").length → (parseN 1 [cstr "--", cstr "build"] buildOnly).subcommand = none →
      clapParsedSubcommand
        (clapParse 2 [cstr "--", cstr "build"]
          (parseN 1 [cstr "--", cstr "build"] buildOnly)).2 (some (cstr "build")) = true ∧
      clapParsedNonOpt
        (clapParse 2 [cstr "--", cstr "build"]
          (parseN 1 [cstr "--", cstr "build"] buildOnly)).2 = none) ∧
    ((cstr "build").length < 2 ∨ (parseN 1 [cstr "--", cstr "build"] buildOnly).subcommand ≠ none →
      clapParsedNonOpt
        (clapParse 2 [cstr "--", cstr "build"]
          (parseN 1 [cstr "--", cstr "build"] buildOnly)).2 = some (cstr "build") ∧
      (clapParse 2 [cstr "--", cstr "build"]
          (parseN 1 [cstr "--", cstr "build"] buildOnly)).2.subcommand =
        (parseN 1 [cstr "--", cstr "build"] buildOnly).subcommand) :=
  latched_subcommand_name [cstr "--", cstr "build"] (parseN 1 [cstr "--", cstr "build"] buildOnly)
    ⟨cstr "build"⟩ (by decide) (by decide) (by decide) (by decide)

/-- C3, counterexample: with the global flag `--foo` registered, the arguments
`--` `--foo` `--foo` set the latch, report the first `--foo` as positional,
and match the flag `--foo` on the third call. -/
theorem dashdash_latch_is_one_shot :
    (parseN 1 [cstr "--", cstr "--foo", cstr "--foo"] fooOnly).next_is_no_opt = true ∧
    clapParsedNonOpt (parseN 2 [cstr "--", cstr "--foo", cstr "--foo"] fooOnly)
      = some (cstr "--foo") ∧
    (parseN 3 [cstr "--", cstr "--foo", cstr "--foo"] fooOnly).current_flag = some 0 ∧
    clapParsedFlag (parseN 3 [cstr "--", cstr "--foo", cstr "--foo"] fooOnly)
      (some (cstr "foo")) 'f' = true ∧
    clapParsedNonOpt (parseN 3 [cstr "--", cstr "--foo", cstr "--foo"] fooOnly) = none := by
  decide

/-- C3, amended: a bare `--` sets the latch; while the latch is on a call
records no matched flag and advances to the next argument; an argument of
fewer than two characters is reported as positional and leaves the latch on;
an argument of two or more characters turns the latch off and is reported as
positional, or activates the subcommand of that name when none is active. -/
theorem latched_step (argv : List CString) (h : CLAPhandler)
    (hlt : h.arg_index < argv.length) (hl : h.next_is_no_opt = true) :
    (clapParse argv.length argv h).1 = true ∧
    (clapParse argv.length argv h).2.current_flag = none ∧
    (clapParse argv.length argv h).2.arg_index = h.arg_index + 1 ∧
    ((argvAt argv h.arg_index).length < 2 →
      (clapParse argv.length argv h).2.next_is_no_opt = true ∧
      clapParsedNonOpt (clapParse argv.length argv h).2 = some (argvAt argv h.arg_index)) ∧
    (2 ≤ (argvAt argv h.arg_index).length →
      (clapParse argv.length argv h).2.next_is_no_opt = false ∧
      (clapParsedNonOpt (clapParse argv.length argv h).2 = some (argvAt argv h.arg_index) ∨
        (h.subcommand = none ∧
          clapParsedSubcommand (clapParse argv.length argv h).2
            (some (argvAt argv h.arg_index)) = true))) := by
  by_cases hlen : (argvAt argv h.arg_index).length < 2
  · rw [clapParse_tiny _ _ _ hlt hlen]
    simp [clapParsedNonOpt, fetchArg, hl, hlen]
  · rw [clapParse_word _ _ _ hlt (by omega) (Or.inl hl)]
    have h2 : 2 ≤ (argvAt argv h.arg_index).length := by omega
    cases hs : h.subcommand with
    | some k => simp [clapParsedNonOpt, fetchArg, hlen]
    | none =>
      simp only [Option.isNone_none, if_true]
      cases hk : firstIdx (fun sc => strcmpEq sc.name (argvAt argv h.arg_index)) h.subcommands with
      | none => simp [clapParsedNonOpt, fetchArg, hlen]
      | some k =>
        obtain ⟨⟨x, hx, hpx⟩, -⟩ := (firstIdx_eq_some_iff _ _ _).1 hk
        have hxn : x.name = argvAt argv h.arg_index := by simpa [strcmpEq] using hpx
        simp [clapParsedNonOpt, clapParsedSubcommand, CLAPhandler.subcommandNameAt, fetchArg,
          hlen, hx, hxn, strcmpEq]

/-- Instance: the state after `--` in `-- --foo --foo`. -/
theorem latched_step_witness :
    (clapParse 3 [cstr "--", cstr "--foo", cstr "--foo"]
      (parseN 1 [cstr "--", cstr "--foo", cstr "--foo"] fooOnly)).2.current_flag = none ∧
    (clapParse 3 [cstr "--", cstr "--foo", cstr "--foo"]
      (parseN 1 [cstr "--", cstr "--foo", cstr "--foo"] fooOnly)).2.arg_index = 2 :=
  ⟨(latched_step [cstr "--", cstr "--foo", cstr "--foo"]
      (parseN 1 [cstr "--", cstr "--foo", cstr "--foo"] fooOnly) (by decide) (by decide)).2.1,
   (latched_step [cstr "--", cstr "--foo", cstr "--foo"]
      (parseN 1 [cstr "--", cstr "--foo", cstr "--foo"] fooOnly) (by decide) (by decide)).2.2.1⟩

/-! ## Long flags -/

/-- An unknown long flag: the call returns `CLAP_TRUE`, advances `arg_index`
by one and leaves `current_flag` and `current_flag_arg` as they were. -/
theorem clapParse_unknown_long (argv : List CString) (h : CLAPhandler) (text : CString)
    (hlt : h.arg_index < argv.length) (hl : h.next_is_no_opt = false)
    (hcur : argvAt argv h.arg_index = '-' :: '-' :: text) (ht : text ≠ [])
    (hno : ∀ f ∈ h.flags, ¬ longNameMatches h text f) :
    (clapParse argv.length argv h).1 = true ∧
    (clapParse argv.length argv h).2.arg_index = h.arg_index + 1 ∧
    (clapParse argv.length argv h).2.current_flag = h.current_flag ∧
    (clapParse argv.length argv h).2.current_flag_arg = h.current_flag_arg := by
  have hnone : firstIdx (longCandidate h text) h.flags = none := by
    rw [firstIdx_eq_none_iff]
    intro f hf
    have := hno f hf
    rw [← longCandidate_iff] at this
    simpa using this
  rw [clapParse_long _ _ _ hlt hl text hcur ht,
    longCandidate_congr h { fetchArg argv h with current_non_opt := none } rfl rfl, hnone]
  simp [fetchArg]

/-- C4, failing input: with the global flag `--out` (short `o`, optional
argument) registered, the arguments `--out=x` `--bar` match `--out` on the
first call; the second call, on the unknown `--bar`, returns `CLAP_TRUE` and
advances `arg_index` by one, but the match of the first call is still
recorded: `clapParsedFlag("out", 'o')` is true and `clapGetArg` returns `x`. -/
theorem unknown_long_flag_keeps_stale_match :
    clapParsedFlag (parseN 1 [cstr "--out=x", cstr "--bar"] outOptional)
      (some (cstr "out")) 'o' = true ∧
    (∀ f ∈ (parseN 1 [cstr "--out=x", cstr "--bar"] outOptional).flags,
      ∀ ln, f.long_name = some ln → ¬ ln <+: cstr "bar") ∧
    (clapParse 2 [cstr "--out=x", cstr "--bar"]
      (parseN 1 [cstr "--out=x", cstr "--bar"] outOptional)).1 = true ∧
    (parseN 1 [cstr "--out=x", cstr "--bar"] outOptional).arg_index = 1 ∧
    (parseN 2 [cstr "--out=x", cstr "--bar"] outOptional).arg_index = 2 ∧
    (parseN 2 [cstr "--out=x", cstr "--bar"] outOptional).current_flag = some 0 ∧
    clapParsedFlag (parseN 2 [cstr "--out=x", cstr "--bar"] outOptional)
      (some (cstr "out")) 'o' = true ∧
    clapGetArg (parseN 2 [cstr "--out=x", cstr "--bar"] outOptional) = some (cstr "x") := by
  refine ⟨by decide, ?_, by decide, by decide, by decide, by decide, by decide, by decide⟩
  intro f hf ln hln
  have hf' : f = ⟨some (cstr "out"), 'o', CLAP_FLAG_OPT_ARG, none⟩ := by
    have : (parseN 1 [cstr "--out=x", cstr "--bar"] outOptional).flags =
        [⟨some (cstr "out"), 'o', CLAP_FLAG_OPT_ARG, none⟩] := by decide
    rw [this] at hf
    simpa using hf
  subst hf'
  simp only [Option.some.injEq] at hln
  subst hln
  decide

/-- C5 (first registered wins): for a long-flag token `--text` met with the
latch off, if entry `i` of the registry has a long name that is a leading
segment of `text` and is visible in the current scope, and no earlier entry
has, then the long-flag loop stops at entry `i`, and `&flags[i]` is the flag
recorded by the call, unless the call invalidates the match (a value attached
to a flag taking none, or a required value that is missing). -/
theorem long_first_registered_wins (argv : List CString) (h : CLAPhandler) (text : CString)
    (i : Nat) (f : CLAPflag)
    (hlt : h.arg_index < argv.length) (hl : h.next_is_no_opt = false)
    (hcur : argvAt argv h.arg_index = '-' :: '-' :: text) (ht : text ≠ [])
    (hi : h.flags[i]? = some f) (hf : longNameMatches h text f)
    (hmin : ∀ j g, j < i → h.flags[j]? = some g → ¬ longNameMatches h text g) :
    firstIdx (longCandidate h text) h.flags = some i ∧
    (clapParse argv.length argv h).2.current_flag =
      if (f.arg_type = CLAP_FLAG_NO_ARG ∧ nonEmptyArg (attachedArg ('-' :: '-' :: text)) = true) ∨
         (f.arg_type = CLAP_FLAG_REQ_ARG ∧ nonEmptyArg (attachedArg ('-' :: '-' :: text)) = false ∧
           argv.length ≤ h.arg_index + 1)
      then none else some i := by
  have hfirst : firstIdx (longCandidate h text) h.flags = some i := by
    rw [firstIdx_eq_some_iff]
    refine ⟨⟨f, hi, (longCandidate_iff h text f).2 hf⟩, ?_⟩
    intro j g hj hg
    have := hmin j g hj hg
    rw [← longCandidate_iff] at this
    simpa using this
  refine ⟨hfirst, ?_⟩
  rw [clapParse_long _ _ _ hlt hl text hcur ht,
    longCandidate_congr h { fetchArg argv h with current_non_opt := none } rfl rfl, hfirst]
  cases hty : f.arg_type <;>
    by_cases hne : nonEmptyArg (attachedArg ('-' :: '-' :: text)) = true <;>
    simp [longFlagBody, CLAPhandler.flagAt, fetchArg, hi, hty, hne]
  by_cases hlast : argv.length ≤ h.arg_index + 1 <;> simp [hlast]

/-- Instance: `--output` selects `out` when
`out` is registered before `output`, and `--out` selects entry 1 when the
earlier entry `output` is not a leading segment of it. -/
theorem long_first_registered_wins_witness :
    (parseN 1 [cstr "--output"] outThenOutput).current_flag = some 0 ∧
    (parseN 1 [cstr "--out"] outputThenOut).current_flag = some 1 :=
  ⟨(long_first_registered_wins [cstr "--output"] outThenOutput (cstr "output") 0
      ⟨some (cstr "out"), 'o', CLAP_FLAG_NO_ARG, none⟩ (by decide) (by decide) (by decide)
      (by decide) (by decide) ⟨cstr "out", rfl, trivial, ⟨cstr "put", by decide⟩⟩
      (fun j _ hj => absurd hj (Nat.not_lt_zero j))).2.trans (by decide),
   (long_first_registered_wins [cstr "--out"] outputThenOut (cstr "out") 1
      ⟨some (cstr "out"), 'o', CLAP_FLAG_NO_ARG, none⟩ (by decide) (by decide) (by decide)
      (by decide) (by decide) ⟨cstr "out", rfl, trivial, ⟨[], by decide⟩⟩
      (by
        intro j g hj hg
        have hj0 : j = 0 := by omega
        subst hj0
        have hg' : g = ⟨some (cstr "output"), 'O', CLAP_FLAG_NO_ARG, none⟩ := by
          have h0 : outputThenOut.flags[0]? =
              some ⟨some (cstr "output"), 'O', CLAP_FLAG_NO_ARG, none⟩ := by decide
          rw [h0] at hg
          exact (Option.some.inj hg).symm
        subst hg'
        rintro ⟨ln, hln, -, hpre⟩
        simp only [Option.some.injEq] at hln
        subst hln
        exact absurd hpre (by decide))).2.trans (by decide)⟩

/-- C7 (detached required value): when the long-flag loop selects a flag of
arity required for the token `--text`, the token carries no non-empty value
after an `=`, and a next element of `argv` exists, the call records that flag,
makes the next element its value whatever that element is, and advances
`arg_index` by two. -/
theorem detached_required_value (argv : List CString) (h : CLAPhandler) (text : CString)
    (i : Nat)
    (hnext : h.arg_index + 1 < argv.length) (hl : h.next_is_no_opt = false)
    (hcur : argvAt argv h.arg_index = '-' :: '-' :: text) (ht : text ≠ [])
    (hsel : firstIdx (longCandidate h text) h.flags = some i)
    (hreq : (h.flagAt i).arg_type = CLAP_FLAG_REQ_ARG)
    (hnoval : nonEmptyArg (attachedArg ('-' :: '-' :: text)) = false) :
    (clapParse argv.length argv h).1 = true ∧
    (clapParse argv.length argv h).2.current_flag = some i ∧
    (clapParse argv.length argv h).2.current_flag_arg = some (argvAt argv (h.arg_index + 1)) ∧
    clapGetArg (clapParse argv.length argv h).2 = some (argvAt argv (h.arg_index + 1)) ∧
    clapParsedNonOpt (clapParse argv.length argv h).2 = none ∧
    (clapParse argv.length argv h).2.arg_index = h.arg_index + 2 := by
  have hlt : h.arg_index < argv.length := by omega
  have hn : ¬ argv.length ≤ h.arg_index + 1 := by omega
  rw [clapParse_long _ _ _ hlt hl text hcur ht,
    longCandidate_congr h { fetchArg argv h with current_non_opt := none } rfl rfl, hsel]
  simp only [CLAPhandler.flagAt, List.getD_eq_getElem?_getD] at hreq
  simp [longFlagBody, clapGetArg, clapParsedNonOpt, CLAPhandler.flagAt, fetchArg, hreq, hnoval, hn]

/-- Instance: `--output --` with `output` of
arity required. -/
theorem detached_required_value_witness :
    clapGetArg (clapParse 2 [cstr "--output", cstr "--"] outputRequired).2 = some (cstr "--") ∧
    (clapParse 2 [cstr "--output", cstr "--"] outputRequired).2.arg_index = 2 :=
  ⟨(detached_required_value [cstr "--output", cstr "--"] outputRequired (cstr "output") 0
      (by decide) (by decide) (by decide) (by decide) (by decide) (by decide)
      (by decide)).2.2.2.1,
   (detached_required_value [cstr "--output", cstr "--"] outputRequired (cstr "output") 0
      (by decide) (by decide) (by decide) (by decide) (by decide) (by decide)
      (by decide)).2.2.2.2.2⟩

/-- C8 (missing required value): when the last argument of `argv` is a long
flag without a non-empty attached value, or a short cluster whose last
character is under the cursor, and the flag the loop selects has arity
required, the call returns `CLAP_TRUE`, records no flag (every flag query is
false and `clapGetArg` returns `NULL`), and leaves `arg_index >= argc`, so the
next call returns `CLAP_FALSE`. -/
theorem missing_required_value (argv : List CString) (h : CLAPhandler) (i : Nat)
    (hlast : h.arg_index + 1 = argv.length) (hl : h.next_is_no_opt = false)
    (hcase :
      (∃ text, argvAt argv h.arg_index = '-' :: '-' :: text ∧ text ≠ [] ∧
        firstIdx (longCandidate h text) h.flags = some i ∧
        nonEmptyArg (attachedArg ('-' :: '-' :: text)) = false) ∨
      (∃ c rest, argvAt argv h.arg_index = '-' :: c :: rest ∧ c ≠ '-' ∧
        h.current_arg_index ≠ 0 ∧
        h.current_arg_index = strlen (argvAt argv h.arg_index) - 1 ∧
        firstIdx (shortCandidate h (charAt (argvAt argv h.arg_index) h.current_arg_index))
          h.flags = some i))
    (hreq : (h.flagAt i).arg_type = CLAP_FLAG_REQ_ARG) :
    (clapParse argv.length argv h).1 = true ∧
    (clapParse argv.length argv h).2.current_flag = none ∧
    (∀ ln sn, clapParsedFlag (clapParse argv.length argv h).2 ln sn = false) ∧
    (∀ sub ln sn,
      clapParsedSubcommandFlag (clapParse argv.length argv h).2 sub ln sn = some false) ∧
    clapGetArg (clapParse argv.length argv h).2 = none ∧
    argv.length ≤ (clapParse argv.length argv h).2.arg_index ∧
    (clapParse argv.length argv (clapParse argv.length argv h).2).1 = false := by
  have hlt : h.arg_index < argv.length := by omega
  have key : (clapParse argv.length argv h).1 = true ∧
      (clapParse argv.length argv h).2.current_flag = none ∧
      argv.length ≤ (clapParse argv.length argv h).2.arg_index := by
    simp only [CLAPhandler.flagAt, List.getD_eq_getElem?_getD] at hreq
    rcases hcase with ⟨text, hcur, ht, hsel, hnoval⟩ | ⟨c, rest, hcur, hc, h0, hend, hsel⟩
    · rw [clapParse_long _ _ _ hlt hl text hcur ht,
        longCandidate_congr h { fetchArg argv h with current_non_opt := none } rfl rfl, hsel]
      simp [longFlagBody, CLAPhandler.flagAt, fetchArg, hreq, hnoval, ← hlast]
    · rw [hcur] at hsel
      rw [clapParse_short _ _ _ hlt hl c rest hcur hc h0,
        shortCandidate_congr h { fetchArg argv h with current_non_opt := none } rfl rfl, hsel]
      simp [shortFlagBody, CLAPhandler.flagAt, fetchArg, hreq, hend, ← hlast]
  obtain ⟨k1, k2, k3⟩ := key
  refine ⟨k1, k2, ?_, ?_, ?_, k3, ?_⟩
  · intro ln sn
    simp [clapParsedFlag, k2]
  · intro sub ln sn
    simp [clapParsedSubcommandFlag, k2]
  · simp [clapGetArg, k2]
  · rw [clapParse_exhausted _ _ _ k3]

/-- Instance: `--output` as the only argument, and `-o` as the only argument
after its opening sub-step, with `output`/`o` of arity required. -/
theorem missing_required_value_witness :
    ((clapParse 1 [cstr "--output"] outputRequired).1 = true ∧
      (clapParse 1 [cstr "--output"] outputRequired).2.current_flag = none ∧
      1 ≤ (clapParse 1 [cstr "--output"] outputRequired).2.arg_index) ∧
    ((clapParse 1 [cstr "-o"] (parseN 1 [cstr "-o"] outputRequired)).1 = true ∧
      (clapParse 1 [cstr "-o"] (parseN 1 [cstr "-o"] outputRequired)).2.current_flag = none ∧
      1 ≤ (clapParse 1 [cstr "-o"] (parseN 1 [cstr "-o"] outputRequired)).2.arg_index) := by
  have A := missing_required_value [cstr "--output"] outputRequired 0 (by decide) (by decide)
    (Or.inl ⟨cstr "output", by decide, by decide, by decide, by decide⟩) (by decide)
  have B := missing_required_value [cstr "-o"] (parseN 1 [cstr "-o"] outputRequired) 0
    (by decide) (by decide)
    (Or.inr ⟨'o', [], by decide, by decide, by decide, by decide, by decide⟩) (by decide)
  exact ⟨⟨A.1, A.2.1, A.2.2.2.2.2.1⟩, ⟨B.1, B.2.1, B.2.2.2.2.2.1⟩⟩

/-! ## Short-flag clusters -/

theorem parseN_succ_right (n : Nat) (argv : List CString) (h : CLAPhandler) :
    parseN (n + 1) argv h = (clapParse argv.length argv (parseN n argv h)).2 := by
  induction n generalizing h with
  | zero => rfl
  | succ n ih =>
    show parseN (n + 1) argv (clapParse argv.length argv h).2 = _
    rw [ih]
    rfl

/-- One call on a character of a cluster that selects a flag taking no
argument, with more characters left in the cluster. -/
theorem cluster_step (argv : List CString) (s : CLAPhandler) (c : Char) (t : CString) (j : Nat)
    (hlt : s.arg_index < argv.length) (hl : s.next_is_no_opt = false)
    (hcur : argvAt argv s.arg_index = '-' :: c :: t) (hc : c ≠ '-')
    (h0 : s.current_arg_index ≠ 0)
    (hmore : s.current_arg_index + 1 < strlen ('-' :: c :: t))
    (hsel : firstIdx (shortCandidate s (charAt ('-' :: c :: t) s.current_arg_index)) s.flags
      = some j)
    (hty : (s.flagAt j).arg_type = CLAP_FLAG_NO_ARG) :
    clapParse argv.length argv s =
      (true, { fetchArg argv s with current_non_opt := none, current_flag := some j,
                                    current_arg_index := s.current_arg_index + 1 }) := by
  simp only [CLAPhandler.flagAt, List.getD_eq_getElem?_getD] at hty
  have hn : ¬ strlen ('-' :: c :: t) ≤ s.current_arg_index + 1 := by omega
  rw [clapParse_short _ _ _ hlt hl c t hcur hc h0,
    shortCandidate_congr s { fetchArg argv s with current_non_opt := none } rfl rfl, hsel]
  simp [shortFlagBody, clapMoveToNextCharOrNextArg, CLAPhandler.flagAt, fetchArg, hty, hcur, hn]

/-- One call on a character of a cluster that selects a flag taking an
optional or required argument. -/
theorem cluster_last (argv : List CString) (s : CLAPhandler) (c : Char) (t : CString) (j : Nat)
    (hlt : s.arg_index < argv.length) (hl : s.next_is_no_opt = false)
    (hcur : argvAt argv s.arg_index = '-' :: c :: t) (hc : c ≠ '-')
    (h0 : s.current_arg_index ≠ 0)
    (hsel : firstIdx (shortCandidate s (charAt ('-' :: c :: t) s.current_arg_index)) s.flags
      = some j)
    (hty : (s.flagAt j).arg_type ≠ CLAP_FLAG_NO_ARG)
    (hnext : s.current_arg_index = strlen ('-' :: c :: t) - 1 →
      (s.flagAt j).arg_type = CLAP_FLAG_REQ_ARG → s.arg_index + 1 < argv.length) :
    (clapParse argv.length argv s).1 = true ∧
    (clapParse argv.length argv s).2.current_flag = some j ∧
    clapParsedNonOpt (clapParse argv.length argv s).2 = none ∧
    clapGetArg (clapParse argv.length argv s).2 =
      (if s.current_arg_index = strlen ('-' :: c :: t) - 1 then
         (if (s.flagAt j).arg_type = CLAP_FLAG_OPT_ARG then none
          else some (argvAt argv (s.arg_index + 1)))
       else some (('-' :: c :: t).drop (s.current_arg_index + 1))) ∧
    (clapParse argv.length argv s).2.current_arg_index = 0 ∧
    (clapParse argv.length argv s).2.arg_index =
      (if s.current_arg_index = strlen ('-' :: c :: t) - 1 ∧
          (s.flagAt j).arg_type = CLAP_FLAG_REQ_ARG then s.arg_index + 2
       else s.arg_index + 1) := by
  simp only [CLAPhandler.flagAt, List.getD_eq_getElem?_getD] at hty hnext ⊢
  rw [clapParse_short _ _ _ hlt hl c t hcur hc h0,
    shortCandidate_congr s { fetchArg argv s with current_non_opt := none } rfl rfl, hsel]
  cases hat : (s.flags[j]?.getD ⟨none, CLAP_FLAG_NO_SHORT, CLAP_FLAG_NO_ARG, none⟩).arg_type with
  | CLAP_FLAG_NO_ARG => exact absurd hat hty
  | CLAP_FLAG_OPT_ARG =>
    by_cases hend : s.current_arg_index = strlen ('-' :: c :: t) - 1 <;>
      simp [shortFlagBody, clapGetArg, clapParsedNonOpt, CLAPhandler.flagAt, fetchArg, hat, hcur,
        hend]
  | CLAP_FLAG_REQ_ARG =>
    by_cases hend : s.current_arg_index = strlen ('-' :: c :: t) - 1
    · have hn : ¬ argv.length ≤ s.arg_index + 1 := by
        have := hnext hend hat
        omega
      simp [shortFlagBody, clapGetArg, clapParsedNonOpt, CLAPhandler.flagAt, fetchArg, hat, hcur,
        hend, hn]
    · simp [shortFlagBody, clapGetArg, clapParsedNonOpt, CLAPhandler.flagAt, fetchArg, hat, hcur,
        hend]

/-- The handler after the opening sub-step and `m` characters of a cluster
whose first `n` characters select flags taking no argument. -/
theorem cluster_prefix (argv : List CString) (h0 : CLAPhandler) (c : Char) (t : CString)
    (n : Nat)
    (hlt : h0.arg_index < argv.length) (hl : h0.next_is_no_opt = false)
    (hcur : argvAt argv h0.arg_index = '-' :: c :: t) (hc : c ≠ '-')
    (h00 : h0.current_arg_index = 0)
    (hn : n + 1 < strlen ('-' :: c :: t))
    (hpre : ∀ m, 1 ≤ m → m ≤ n →
      ∃ j, firstIdx (shortCandidate h0 (charAt ('-' :: c :: t) m)) h0.flags = some j ∧
        (h0.flagAt j).arg_type = CLAP_FLAG_NO_ARG) :
    ∀ m, m ≤ n →
      parseN (m + 1) argv h0 =
        { fetchArg argv h0 with
          current_non_opt := none,
          current_flag :=
            if m = 0 then none
            else firstIdx (shortCandidate h0 (charAt ('-' :: c :: t) m)) h0.flags,
          current_arg_index := m + 1 } := by
  intro m
  induction m with
  | zero =>
    intro _
    show (clapParse argv.length argv h0).2 = _
    rw [clapParse_cluster_open _ _ _ hlt hl c t hcur hc h00]
    simp
  | succ m ih =>
    intro hm
    obtain ⟨j, hj, hjt⟩ := hpre (m + 1) (by omega) hm
    rw [parseN_succ_right, ih (by omega)]
    rw [cluster_step argv _ c t j (by simpa [fetchArg] using hlt) (by simpa [fetchArg] using hl)
      (by simpa [fetchArg] using hcur) hc (by simp) (by simp; omega)
      (by
        rw [shortCandidate_congr h0 _ rfl rfl]
        simpa [fetchArg] using hj)
      (by simpa [CLAPhandler.flagAt, fetchArg] using hjt)]
    simp [fetchArg, hj]

theorem charAt_cluster_pre (pre : CString) (xk : Char) (rest : CString) (m : Nat) (ch : Char)
    (hm : pre[m]? = some ch) : charAt ('-' :: (pre ++ xk :: rest)) (m + 1) = ch := by
  have hlt : m < pre.length := by
    by_contra hge
    rw [List.getElem?_eq_none (by omega)] at hm
    exact absurd hm (by simp)
  simp [charAt, List.getElem?_append_left hlt, hm]

theorem charAt_cluster_last (pre : CString) (xk : Char) (rest : CString) :
    charAt ('-' :: (pre ++ xk :: rest)) (pre.length + 1) = xk := by
  have : (pre ++ xk :: rest)[pre.length]? = some xk := by
    rw [List.getElem?_append_right (Nat.le_refl _)]
    simp
  simp only [charAt, List.getD_eq_getElem?_getD, List.getElem?_cons_succ, this, Option.getD_some]

theorem clapParse_ret_of_lt (argv : List CString) (h : CLAPhandler)
    (hlt : h.arg_index < argv.length) : (clapParse argv.length argv h).1 = true := by
  have hge : ¬ argv.length ≤ h.arg_index := by omega
  simp only [clapParse, ge_iff_le, hge, if_false]
  repeat' split
  all_goals rfl

/-- C6 (cluster consumption): a cluster argument `-x1..xn` met at character
offset 0 with the latch off, in which the characters `pre` each select a flag
taking no argument and the next character `xk` selects `&flags[jk]` of arity
optional or required (with a next element of `argv` present when that flag is
required and ends the cluster).  Every call up to the one for `xk` returns
`CLAP_TRUE`; the opening call records no flag and no positional and moves the
offset to 1; call `m + 2` records the flag selected by `pre[m]` with no value;
call `|pre| + 2` records `&flags[jk]` whose value is the rest of the cluster
when there is one, and otherwise `NULL` (optional) or the next element of
`argv` (required); after it the offset is 0 and `arg_index` is past the
cluster, and past the consumed value. -/
theorem cluster_consumption (argv : List CString) (h0 : CLAPhandler) (pre : CString) (xk : Char)
    (rest : CString) (jk : Nat)
    (hlt : h0.arg_index < argv.length) (hl : h0.next_is_no_opt = false)
    (h00 : h0.current_arg_index = 0)
    (hcur : argvAt argv h0.arg_index = '-' :: (pre ++ xk :: rest))
    (hdash : charAt ('-' :: (pre ++ xk :: rest)) 1 ≠ '-')
    (hpre : ∀ c ∈ pre, ∃ j, firstIdx (shortCandidate h0 c) h0.flags = some j ∧
      (h0.flagAt j).arg_type = CLAP_FLAG_NO_ARG)
    (hk : firstIdx (shortCandidate h0 xk) h0.flags = some jk)
    (hty : (h0.flagAt jk).arg_type ≠ CLAP_FLAG_NO_ARG)
    (hnext : rest = [] → (h0.flagAt jk).arg_type = CLAP_FLAG_REQ_ARG →
      h0.arg_index + 1 < argv.length) :
    (∀ m, m ≤ pre.length + 1 → (clapParse argv.length argv (parseN m argv h0)).1 = true) ∧
    ((parseN 1 argv h0).current_flag = none ∧
      clapParsedNonOpt (parseN 1 argv h0) = none ∧
      (parseN 1 argv h0).arg_index = h0.arg_index ∧
      (parseN 1 argv h0).current_arg_index = 1) ∧
    (∀ m c, pre[m]? = some c →
      (parseN (m + 2) argv h0).current_flag = firstIdx (shortCandidate h0 c) h0.flags ∧
      (parseN (m + 2) argv h0).current_flag ≠ none ∧
      clapGetArg (parseN (m + 2) argv h0) = none ∧
      clapParsedNonOpt (parseN (m + 2) argv h0) = none) ∧
    ((parseN (pre.length + 2) argv h0).current_flag = some jk ∧
      clapGetArg (parseN (pre.length + 2) argv h0) =
        (if rest ≠ [] then some rest
         else if (h0.flagAt jk).arg_type = CLAP_FLAG_OPT_ARG then none
         else some (argvAt argv (h0.arg_index + 1))) ∧
      clapParsedNonOpt (parseN (pre.length + 2) argv h0) = none ∧
      (parseN (pre.length + 2) argv h0).current_arg_index = 0 ∧
      (parseN (pre.length + 2) argv h0).arg_index =
        (if rest = [] ∧ (h0.flagAt jk).arg_type = CLAP_FLAG_REQ_ARG then h0.arg_index + 2
         else h0.arg_index + 1)) := by
  obtain ⟨c, t, hct⟩ := List.exists_cons_of_ne_nil (l := pre ++ xk :: rest) (by simp)
  have hE : ('-' :: c :: t : CString) = '-' :: (pre ++ xk :: rest) := by rw [hct]
  have hc : c ≠ '-' := by
    rw [← hE] at hdash
    simpa [charAt] using hdash
  have hcur' : argvAt argv h0.arg_index = '-' :: c :: t := by rw [hE]; exact hcur
  have hlen : strlen ('-' :: c :: t) = pre.length + rest.length + 2 := by
    rw [hE]
    simp [strlen]
    omega
  have hpre' : ∀ m, 1 ≤ m → m ≤ pre.length →
      ∃ j, firstIdx (shortCandidate h0 (charAt ('-' :: c :: t) m)) h0.flags = some j ∧
        (h0.flagAt j).arg_type = CLAP_FLAG_NO_ARG := by
    intro m h1 hm
    obtain ⟨m', rfl⟩ : ∃ m', m = m' + 1 := ⟨m - 1, by omega⟩
    have hm' : m' < pre.length := by omega
    have hget : pre[m']? = some pre[m'] := List.getElem?_eq_getElem hm'
    rw [hE, charAt_cluster_pre pre xk rest m' _ hget]
    exact hpre _ (List.getElem_mem hm')
  have P := cluster_prefix argv h0 c t pre.length hlt hl hcur' hc h00 (by omega) hpre'
  refine ⟨?_, ?_, ?_, ?_⟩
  · intro m hm
    apply clapParse_ret_of_lt
    cases m with
    | zero => exact hlt
    | succ m =>
      rw [P m (by omega)]
      simpa [fetchArg] using hlt
  · rw [P 0 (Nat.zero_le _)]
    simp [clapParsedNonOpt, fetchArg]
  · intro m ch hm
    have hmlt : m < pre.length := by
      by_contra hge
      rw [List.getElem?_eq_none (by omega)] at hm
      exact absurd hm (by simp)
    obtain ⟨j, hj, hjt⟩ := hpre ch (List.getElem?_mem hm)
    simp only [CLAPhandler.flagAt, List.getD_eq_getElem?_getD] at hjt
    rw [show m + 2 = (m + 1) + 1 from rfl, P (m + 1) (by omega), hE,
      charAt_cluster_pre pre xk rest m ch hm]
    simp [clapGetArg, clapParsedNonOpt, CLAPhandler.flagAt, fetchArg, hj, hjt]
  · have hs := P pre.length (Nat.le_refl _)
    have hlast := cluster_last argv (parseN (pre.length + 1) argv h0) c t jk
      (by rw [hs]; simpa [fetchArg] using hlt) (by rw [hs]; simpa [fetchArg] using hl)
      (by rw [hs]; simpa [fetchArg] using hcur') hc (by rw [hs]; simp)
      (by
        rw [hs, shortCandidate_congr h0 _ rfl rfl]
        simp only [hE, charAt_cluster_last]
        simpa [fetchArg] using hk)
      (by rw [hs]; simpa [CLAPhandler.flagAt, fetchArg] using hty)
      (by
        rw [hs]
        intro hend hreq
        have hr : rest = [] := by
          simp only [hlen] at hend
          have : rest.length = 0 := by omega
          simpa using this
        have := hnext hr (by simpa [CLAPhandler.flagAt, fetchArg] using hreq)
        simpa [fetchArg] using this)
    rw [show pre.length + 2 = (pre.length + 1) + 1 from rfl, parseN_succ_right]
    obtain ⟨-, l2, l3, l4, l5, l6⟩ := hlast
    have hidx : (parseN (pre.length + 1) argv h0).current_arg_index = pre.length + 1 := by
      rw [hs]
    have harg : (parseN (pre.length + 1) argv h0).arg_index = h0.arg_index := by
      rw [hs]; simp [fetchArg]
    have hfl : (parseN (pre.length + 1) argv h0).flagAt jk = h0.flagAt jk := by
      rw [hs]; simp [CLAPhandler.flagAt, fetchArg]
    have hendiff : (pre.length + 1 = strlen ('-' :: c :: t) - 1) ↔ rest = [] := by
      rw [hlen]
      constructor
      · intro h
        have : rest.length = 0 := by omega
        simpa using this
      · intro h
        simp [h]
    have hdrop : ('-' :: c :: t).drop (pre.length + 1 + 1) = rest := by
      rw [hE]
      simp
    rw [hidx, harg, hfl] at l4 l6
    rw [hdrop] at l4
    refine ⟨l2, ?_, l3, l5, ?_⟩
    · rw [l4]
      by_cases hr : rest = []
      · simp [hr, hendiff.2 hr]
      · have : ¬ pre.length + 1 = strlen ('-' :: c :: t) - 1 := fun h => hr (hendiff.1 h)
        simp [hr, this]
    · rw [l6]
      by_cases hr : rest = []
      · simp [hr, hendiff.2 hr]
      · have : ¬ pre.length + 1 = strlen ('-' :: c :: t) - 1 := fun h => hr (hendiff.1 h)
        simp [hr, this]

/-- Instance: `-abc` with `a`, `b` taking no argument
and `c` an optional one matches `a`, `b`, `c` with the value of `c` unset, and
`-ovalue` with `o` of arity required matches `o` with value `value`. -/
theorem cluster_consumption_witness :
    ((parseN 2 [cstr "-abc"] abcFlags).current_flag = some 0 ∧
      (parseN 3 [cstr "-abc"] abcFlags).current_flag = some 1 ∧
      (parseN 4 [cstr "-abc"] abcFlags).current_flag = some 2 ∧
      clapGetArg (parseN 4 [cstr "-abc"] abcFlags) = none ∧
      (parseN 4 [cstr "-abc"] abcFlags).arg_index = 1) ∧
    ((parseN 2 [cstr "-ovalue"] outputRequired).current_flag = some 0 ∧
      clapGetArg (parseN 2 [cstr "-ovalue"] outputRequired) = some (cstr "value") ∧
      (parseN 2 [cstr "-ovalue"] outputRequired).arg_index = 1) := by
  have A := cluster_consumption [cstr "-abc"] abcFlags ['a', 'b'] 'c' [] 2 (by decide)
    (by decide) (by decide) (by decide) (by decide)
    (by
      intro c hc
      simp only [List.mem_cons, List.mem_singleton, List.not_mem_nil, or_false] at hc
      rcases hc with rfl | rfl
      · exact ⟨0, by decide, by decide⟩
      · exact ⟨1, by decide, by decide⟩)
    (by decide) (by decide) (fun _ hreq => absurd hreq (by decide))
  have B := cluster_consumption [cstr "-ovalue"] outputRequired [] 'o' (cstr "value") 0
    (by decide) (by decide) (by decide) (by decide) (by decide)
    (fun c hc => absurd hc (List.not_mem_nil c)) (by decide) (by decide)
    (fun hr _ => absurd hr (by decide))
  exact ⟨⟨(A.2.2.1 0 'a' rfl).1.trans (by decide), (A.2.2.1 1 'b' rfl).1.trans (by decide),
      A.2.2.2.1, A.2.2.2.2.1.trans (by decide), A.2.2.2.2.2.2.2.trans (by decide)⟩,
    ⟨B.2.2.2.1, B.2.2.2.2.1.trans (by decide), B.2.2.2.2.2.2.2.trans (by decide)⟩⟩

/-! ## Scoping of the recorded flag -/

/-- The branches of `clapParse`, by the shape of the current argument. -/
theorem clapParse_cases (argc : Nat) (argv : List CString) (h : CLAPhandler) :
    argc ≤ h.arg_index ∨
    (h.arg_index < argc ∧ (argvAt argv h.arg_index).length < 2) ∨
    (h.arg_index < argc ∧ 2 ≤ (argvAt argv h.arg_index).length ∧
      (h.next_is_no_opt = true ∨ charAt (argvAt argv h.arg_index) 0 ≠ '-')) ∨
    (h.arg_index < argc ∧ h.next_is_no_opt = false ∧ argvAt argv h.arg_index = ['-', '-']) ∨
    (h.arg_index < argc ∧ h.next_is_no_opt = false ∧
      ∃ text, argvAt argv h.arg_index = '-' :: '-' :: text ∧ text ≠ []) ∨
    (h.arg_index < argc ∧ h.next_is_no_opt = false ∧
      ∃ c rest, argvAt argv h.arg_index = '-' :: c :: rest ∧ c ≠ '-') := by
  by_cases hge : argc ≤ h.arg_index
  · exact Or.inl hge
  have hlt : h.arg_index < argc := by omega
  by_cases hlen : (argvAt argv h.arg_index).length < 2
  · exact Or.inr (Or.inl ⟨hlt, hlen⟩)
  by_cases hl : h.next_is_no_opt = true
  · exact Or.inr (Or.inr (Or.inl ⟨hlt, by omega, Or.inl hl⟩))
  by_cases hd : charAt (argvAt argv h.arg_index) 0 = '-'
  · have hl' : h.next_is_no_opt = false := by simpa using hl
    match hcur : argvAt argv h.arg_index with
    | [] => simp [hcur] at hlen
    | [_] => simp [hcur] at hlen
    | a :: c :: rest =>
      have ha : a = '-' := by simpa [hcur, charAt] using hd
      subst ha
      by_cases hc : c = '-'
      · subst hc
        by_cases hr : rest = []
        · subst hr
          exact Or.inr (Or.inr (Or.inr (Or.inl ⟨hlt, hl', rfl⟩)))
        · exact Or.inr (Or.inr (Or.inr (Or.inr (Or.inl ⟨hlt, hl', rest, rfl, hr⟩))))
      · exact Or.inr (Or.inr (Or.inr (Or.inr (Or.inr ⟨hlt, hl', c, rest, rfl, hc⟩))))
  · exact Or.inr (Or.inr (Or.inl ⟨hlt, by omega, Or.inr hd⟩))

theorem longFlagBody_frame (argc : Nat) (argv : List CString) (h : CLAPhandler) (i : Nat)
    (arg : Option CString) :
    (longFlagBody argc argv h i arg).flags = h.flags ∧
    (longFlagBody argc argv h i arg).subcommands = h.subcommands ∧
    (longFlagBody argc argv h i arg).subcommand = h.subcommand ∧
    ((longFlagBody argc argv h i arg).current_flag = none ∨
      (longFlagBody argc argv h i arg).current_flag = some i) := by
  unfold longFlagBody
  simp only
  split <;> (try split) <;> (try split) <;> simp

theorem clapMoveToNextCharOrNextArg_frame (h : CLAPhandler) :
    (clapMoveToNextCharOrNextArg h).flags = h.flags ∧
    (clapMoveToNextCharOrNextArg h).subcommands = h.subcommands ∧
    (clapMoveToNextCharOrNextArg h).subcommand = h.subcommand ∧
    (clapMoveToNextCharOrNextArg h).current_flag = h.current_flag := by
  unfold clapMoveToNextCharOrNextArg
  simp only
  split <;> simp

theorem shortFlagBody_frame (argc : Nat) (argv : List CString) (h : CLAPhandler) (i : Nat)
    (cur : CString) :
    (shortFlagBody argc argv h i cur).flags = h.flags ∧
    (shortFlagBody argc argv h i cur).subcommands = h.subcommands ∧
    (shortFlagBody argc argv h i cur).subcommand = h.subcommand ∧
    ((shortFlagBody argc argv h i cur).current_flag = none ∨
      (shortFlagBody argc argv h i cur).current_flag = some i) := by
  unfold shortFlagBody
  simp only
  split
  · simp [clapMoveToNextCharOrNextArg_frame]
  · simp
  · split
    · simp
    · split <;> simp

/-- What a call does to the registry, the active subcommand and the recorded
flag: the registry is untouched, and the recorded flag is cleared, or kept
while the active subcommand is kept, or set to an entry that passed the scope
tests under the active subcommand, which is kept. -/
theorem clapParse_flag_frame (argc : Nat) (argv : List CString) (h : CLAPhandler) :
    (clapParse argc argv h).2.flags = h.flags ∧
    (clapParse argc argv h).2.subcommands = h.subcommands ∧
    ((clapParse argc argv h).2.current_flag = none ∨
      ((clapParse argc argv h).2.current_flag = h.current_flag ∧
        (clapParse argc argv h).2.subcommand = h.subcommand) ∨
      ((clapParse argc argv h).2.subcommand = h.subcommand ∧
        ∃ i f, (clapParse argc argv h).2.current_flag = some i ∧ h.flags[i]? = some f ∧
          scopeSkips h f = false)) := by
  rcases clapParse_cases argc argv h with hge | ⟨hlt, hlen⟩ | ⟨hlt, hlen, hw⟩ | ⟨hlt, hl, hcur⟩ |
    ⟨hlt, hl, text, hcur, ht⟩ | ⟨hlt, hl, c, rest, hcur, hc⟩
  · rw [clapParse_exhausted _ _ _ hge]
    simp
  · rw [clapParse_tiny _ _ _ hlt hlen]
    simp [fetchArg]
  · rw [clapParse_word _ _ _ hlt hlen hw]
    split <;> simp [fetchArg]
  · rw [clapParse_dashdash _ _ _ hlt hl hcur]
    simp [fetchArg]
  · rw [clapParse_long _ _ _ hlt hl text hcur ht,
      longCandidate_congr h { fetchArg argv h with current_non_opt := none } rfl rfl]
    cases hsel : firstIdx (longCandidate h text) h.flags with
    | none => simp [fetchArg]
    | some i =>
      obtain ⟨⟨f, hf, hpf⟩, -⟩ := (firstIdx_eq_some_iff _ _ _).1 hsel
      have hskip : scopeSkips h f = false := by
        unfold longCandidate at hpf
        cases hln : f.long_name with
        | none => simp [hln] at hpf
        | some ln =>
          simp only [hln, Bool.and_eq_true, Bool.not_eq_true'] at hpf
          exact hpf.1
      obtain ⟨b1, b2, b3, b4⟩ := longFlagBody_frame argc argv
        { fetchArg argv h with current_non_opt := none } i (attachedArg ('-' :: '-' :: text))
      refine ⟨by simpa [fetchArg] using b1, by simpa [fetchArg] using b2, ?_⟩
      rcases b4 with b4 | b4
      · exact Or.inl b4
      · exact Or.inr (Or.inr ⟨by simpa [fetchArg] using b3, i, f, b4, hf, hskip⟩)
  · by_cases h0 : h.current_arg_index = 0
    · rw [clapParse_cluster_open _ _ _ hlt hl c rest hcur hc h0]
      simp [fetchArg]
    · rw [clapParse_short _ _ _ hlt hl c rest hcur hc h0,
        shortCandidate_congr h { fetchArg argv h with current_non_opt := none } rfl rfl]
      cases hsel : firstIdx (shortCandidate h (charAt ('-' :: c :: rest) h.current_arg_index))
          h.flags with
      | none =>
        obtain ⟨m1, m2, m3, m4⟩ := clapMoveToNextCharOrNextArg_frame
          { fetchArg argv h with current_non_opt := none, current_flag := none }
        exact ⟨by simpa [fetchArg] using m1, by simpa [fetchArg] using m2,
          Or.inl (by simpa using m4)⟩
      | some i =>
        obtain ⟨⟨f, hf, hpf⟩, -⟩ := (firstIdx_eq_some_iff _ _ _).1 hsel
        have hskip : scopeSkips h f = false := by
          simp only [shortCandidate, Bool.and_eq_true, Bool.not_eq_true'] at hpf
          exact hpf.1.2
        obtain ⟨b1, b2, b3, b4⟩ := shortFlagBody_frame argc argv
          { fetchArg argv h with current_non_opt := none } i ('-' :: c :: rest)
        refine ⟨by simpa [fetchArg] using b1, by simpa [fetchArg] using b2, ?_⟩
        rcases b4 with b4 | b4
        · exact Or.inl b4
        · exact Or.inr (Or.inr ⟨by simpa [fetchArg] using b3, i, f, b4, hf, hskip⟩)

/-- C9 (subcommand scoping): in every state reached from a reset parser by
calls of `clapParse`, the recorded flag is an entry of the registry that is
visible in the current scope: if it was registered under a subcommand name,
a subcommand of that name is active, and if it was registered with no
subcommand, no subcommand is active. -/
theorem matched_flag_in_scope (h : CLAPhandler) (hr : Reachable h) (i : Nat)
    (hi : h.current_flag = some i) :
    ∃ f, h.flags[i]? = some f ∧ visibleInScope h f ∧
      (∀ n, f.subcommand_name = some n →
        ∃ k, h.subcommand = some k ∧ h.subcommandNameAt k = n) ∧
      (f.subcommand_name = none → h.subcommand = none) := by
  have key : ∀ h, Reachable h → ∀ i, h.current_flag = some i →
      ∃ f, h.flags[i]? = some f ∧ scopeSkips h f = false := by
    intro h hr
    induction hr with
    | reset h0 =>
      intro i hi
      simp [clapResetParser] at hi
    | step argv h0 _ ih =>
      intro i hi
      obtain ⟨e1, e2, e3⟩ := clapParse_flag_frame argv.length argv h0
      rcases e3 with e3 | ⟨e3, e4⟩ | ⟨e4, j, f, e5, e6, e7⟩
      · rw [e3] at hi
        exact absurd hi (by simp)
      · obtain ⟨f, hf, hs⟩ := ih i (by rw [← e3]; exact hi)
        refine ⟨f, by rw [e1]; exact hf, ?_⟩
        rw [scopeSkips_congr h0 _ e4 e2]
        exact hs
      · rw [e5] at hi
        have hij : j = i := Option.some.inj hi
        subst hij
        refine ⟨f, by rw [e1]; exact e6, ?_⟩
        rw [scopeSkips_congr h0 _ e4 e2]
        exact e7
  obtain ⟨f, hf, hs⟩ := key h hr i hi
  have hv : visibleInScope h f := (scopeSkips_eq_false_iff h f).1 hs
  refine ⟨f, hf, hv, ?_, ?_⟩
  · intro n hn
    unfold visibleInScope at hv
    rw [hn] at hv
    cases hsub : h.subcommand with
    | none => simp [hsub] at hv
    | some k =>
      simp only [hsub] at hv
      exact ⟨k, rfl, hv⟩
  · intro hn
    unfold visibleInScope at hv
    rw [hn] at hv
    cases hsub : h.subcommand with
    | none => rfl
    | some k => simp [hsub] at hv

/-- Instance: after `build --jobs 4` the recorded
flag is `--jobs`, registered under `build`, and `build` is active. -/
theorem matched_flag_in_scope_witness :
    (parseN 2 [cstr "build", cstr "--jobs", cstr "4"] (clapResetParser buildJobs)).current_flag
      = some 0 ∧
    ∃ f, (parseN 2 [cstr "build", cstr "--jobs", cstr "4"] (clapResetParser buildJobs)).flags[0]?
        = some f ∧
      visibleInScope (parseN 2 [cstr "build", cstr "--jobs", cstr "4"]
        (clapResetParser buildJobs)) f ∧
      (∀ n, f.subcommand_name = some n →
        ∃ k, (parseN 2 [cstr "build", cstr "--jobs", cstr "4"]
            (clapResetParser buildJobs)).subcommand = some k ∧
          (parseN 2 [cstr "build", cstr "--jobs", cstr "4"]
            (clapResetParser buildJobs)).subcommandNameAt k = n) ∧
      (f.subcommand_name = none →
        (parseN 2 [cstr "build", cstr "--jobs", cstr "4"]
          (clapResetParser buildJobs)).subcommand = none) :=
  ⟨by decide,
   matched_flag_in_scope _
    (Reachable.step [cstr "build", cstr "--jobs", cstr "4"] _
      (Reachable.step [cstr "build", cstr "--jobs", cstr "4"] _ (Reachable.reset buildJobs)))
    0 (by decide)⟩

/-! ## Exhausting the argument vector -/

theorem clapMoveToNextCharOrNextArg_cursor (h : CLAPhandler) :
    (clapMoveToNextCharOrNextArg h).arg_index = h.arg_index + 1 ∨
    ((clapMoveToNextCharOrNextArg h).arg_index = h.arg_index ∧
      (clapMoveToNextCharOrNextArg h).current_arg_index = h.current_arg_index + 1 ∧
      h.current_arg_index + 1 < h.current_arg_len) := by
  unfold clapMoveToNextCharOrNextArg
  simp only
  split
  · simp
  · rename_i hn
    simp only [ge_iff_le, not_le] at hn
    exact Or.inr ⟨rfl, rfl, hn⟩

theorem longFlagBody_cursor (argc : Nat) (argv : List CString) (h : CLAPhandler) (i : Nat)
    (arg : Option CString) : h.arg_index < (longFlagBody argc argv h i arg).arg_index := by
  unfold longFlagBody
  simp only
  split <;> (try split) <;> (try split) <;> simp <;> omega

theorem shortFlagBody_cursor (argc : Nat) (argv : List CString) (h : CLAPhandler) (i : Nat)
    (cur : CString) :
    h.arg_index < (shortFlagBody argc argv h i cur).arg_index ∨
    ((shortFlagBody argc argv h i cur).arg_index = h.arg_index ∧
      (shortFlagBody argc argv h i cur).current_arg_index = h.current_arg_index + 1 ∧
      h.current_arg_index + 1 < h.current_arg_len) := by
  unfold shortFlagBody
  simp only
  split
  · rcases clapMoveToNextCharOrNextArg_cursor { h with current_flag := some i } with m | m
    · left
      rw [m]
      simp
    · right
      simpa using m
  · left
    simp
  · left
    split
    · simp
    · split <;> (simp; try omega)

/-- A call that does not find the arguments exhausted moves to a later
argument, or moves one character forward inside the current argument. -/
theorem clapParse_cursor (argv : List CString) (h : CLAPhandler)
    (hlt : h.arg_index < argv.length) :
    h.arg_index < (clapParse argv.length argv h).2.arg_index ∨
    ((clapParse argv.length argv h).2.arg_index = h.arg_index ∧
      (clapParse argv.length argv h).2.current_arg_index = h.current_arg_index + 1 ∧
      h.current_arg_index + 1 < (argvAt argv h.arg_index).length) := by
  rcases clapParse_cases argv.length argv h with hge | ⟨-, hlen⟩ | ⟨-, hlen, hw⟩ | ⟨-, hl, hcur⟩ |
    ⟨-, hl, text, hcur, ht⟩ | ⟨-, hl, c, rest, hcur, hc⟩
  · omega
  · rw [clapParse_tiny _ _ _ hlt hlen]
    simp [fetchArg]
  · rw [clapParse_word _ _ _ hlt hlen hw]
    split <;> simp [fetchArg]
  · rw [clapParse_dashdash _ _ _ hlt hl hcur]
    simp [fetchArg]
  · rw [clapParse_long _ _ _ hlt hl text hcur ht]
    cases firstIdx (longCandidate { fetchArg argv h with current_non_opt := none } text)
        h.flags with
    | some i =>
      left
      have := longFlagBody_cursor argv.length argv
        { fetchArg argv h with current_non_opt := none } i (attachedArg ('-' :: '-' :: text))
      simpa [fetchArg] using this
    | none => simp [fetchArg]
  · by_cases h0 : h.current_arg_index = 0
    · rw [clapParse_cluster_open _ _ _ hlt hl c rest hcur hc h0]
      right
      simp [fetchArg, h0, hcur]
    · rw [clapParse_short _ _ _ hlt hl c rest hcur hc h0]
      cases firstIdx (shortCandidate { fetchArg argv h with current_non_opt := none }
          (charAt ('-' :: c :: rest) h.current_arg_index)) h.flags with
      | some i =>
        have := shortFlagBody_cursor argv.length argv
          { fetchArg argv h with current_non_opt := none } i ('-' :: c :: rest)
        simpa [fetchArg, strlen, hcur] using this
      | none =>
        have := clapMoveToNextCharOrNextArg_cursor
          { fetchArg argv h with current_non_opt := none, current_flag := none }
        rcases this with m | m
        · left
          simp only at m ⊢
          rw [m]
          simp [fetchArg]
        · right
          simpa [fetchArg, strlen, hcur] using m

theorem sum_drop_succ_le (argv : List CString) (a b : Nat) (hab : a ≤ b) :
    ((argv.drop b).map (fun x => x.length + 1)).sum ≤
      ((argv.drop a).map (fun x => x.length + 1)).sum := by
  induction argv generalizing a b with
  | nil => simp
  | cons x xs ih =>
    cases a with
    | zero =>
      cases b with
      | zero => exact Nat.le_refl _
      | succ b =>
        have := ih 0 b (Nat.zero_le _)
        simp only [List.drop_succ_cons, List.drop_zero, List.map_cons, List.sum_cons] at this ⊢
        omega
    | succ a =>
      cases b with
      | zero => omega
      | succ b =>
        simpa using ih a b (by omega)

theorem sum_drop_eq (argv : List CString) (a : Nat) (ha : a < argv.length) :
    ((argv.drop a).map (fun x => x.length + 1)).sum =
      (argvAt argv a).length + 1 + ((argv.drop (a + 1)).map (fun x => x.length + 1)).sum := by
  induction argv generalizing a with
  | nil => simp at ha
  | cons x xs ih =>
    cases a with
    | zero => simp [argvAt]
    | succ a =>
      have := ih a (by simpa using ha)
      simpa [argvAt] using this

theorem callsLeft_le (argv : List CString) (h : CLAPhandler) :
    callsLeft argv h ≤ ((argv.drop h.arg_index).map (fun x => x.length + 1)).sum := by
  unfold callsLeft
  split
  · rename_i hlt
    rw [sum_drop_eq argv _ hlt]
    split <;> omega
  · exact Nat.zero_le _

/-- Each call that returns `CLAP_TRUE` lowers the bound `callsLeft`. -/
theorem callsLeft_decreases (argv : List CString) (h : CLAPhandler)
    (hlt : h.arg_index < argv.length) :
    callsLeft argv (clapParse argv.length argv h).2 < callsLeft argv h := by
  rcases clapParse_cursor argv h hlt with hc | ⟨h1, h2, h3⟩
  · have a1 := callsLeft_le argv (clapParse argv.length argv h).2
    have a2 := sum_drop_succ_le argv (h.arg_index + 1) (clapParse argv.length argv h).2.arg_index hc
    have a3 : ((argv.drop (h.arg_index + 1)).map (fun x => x.length + 1)).sum < callsLeft argv h := by
      unfold callsLeft
      rw [if_pos hlt]
      split <;> omega
    omega
  · unfold callsLeft
    rw [h1, h2, if_pos hlt, if_pos hlt, if_pos h3, if_pos (by omega)]
    omega

/-- With more fuel than `callsLeft`, the host loop runs until `clapParse`
returns `CLAP_FALSE`: every observation but the last has `ret = true`, and the
last has `ret = false`. -/
theorem parseTrace_ends (argv : List CString) (fuel : Nat) (h : CLAPhandler)
    (hfuel : callsLeft argv h < fuel) :
    ∃ pre last, parseTrace fuel argv h = pre ++ [last] ∧ last.ret = false ∧
      pre.all (fun o => o.ret) = true := by
  induction fuel generalizing h with
  | zero => omega
  | succ fuel ih =>
    by_cases hge : argv.length ≤ h.arg_index
    · refine ⟨[], observe (false, h), ?_, rfl, rfl⟩
      simp [parseTrace, clapParse_exhausted _ _ _ hge]
    · have hlt : h.arg_index < argv.length := by omega
      have hret := clapParse_ret_of_lt argv h hlt
      have hdec := callsLeft_decreases argv h hlt
      obtain ⟨pre, last, e1, e2, e3⟩ := ih (clapParse argv.length argv h).2 (by omega)
      refine ⟨observe (clapParse argv.length argv h) :: pre, last, ?_, e2, ?_⟩
      · simp [parseTrace, hret, e1]
      · simp [observe, hret, e3]

/-! ## Reset -/

theorem clapParse_congr_fetch (argc : Nat) (argv : List CString) (h h' : CLAPhandler)
    (hidx : h.arg_index = h'.arg_index) (hf : fetchArg argv h = fetchArg argv h')
    (hlt : h.arg_index < argc) : clapParse argc argv h = clapParse argc argv h' := by
  have h1 : ¬ argc ≤ h'.arg_index := by omega
  simp only [clapParse, ge_iff_le, hidx, h1, if_false, hf]

theorem observe_first_call_reset (argv : List CString) (h : CLAPhandler) :
    clapParse argv.length argv (clapResetParser h) =
        clapParse argv.length argv (zeroHandler h.flags h.subcommands) ∨
    (clapParse argv.length argv (clapResetParser h) = (false, clapResetParser h) ∧
      clapParse argv.length argv (zeroHandler h.flags h.subcommands) =
        (false, zeroHandler h.flags h.subcommands)) := by
  by_cases hlen : argv.length = 0
  · right
    exact ⟨clapParse_exhausted _ _ _ (by simp [hlen]), clapParse_exhausted _ _ _ (by simp [hlen])⟩
  · left
    apply clapParse_congr_fetch
    · rfl
    · simp [fetchArg, clapResetParser, zeroHandler]
    · show 0 < argv.length
      omega

theorem parseTrace_reset_eq_zero (argv : List CString) (h : CLAPhandler) (fuel : Nat) :
    parseTrace fuel argv (clapResetParser h) =
      parseTrace fuel argv (zeroHandler h.flags h.subcommands) := by
  cases fuel with
  | zero => rfl
  | succ fuel =>
    rcases observe_first_call_reset argv h with e | ⟨e1, e2⟩
    · simp only [parseTrace, e]
    · simp only [parseTrace, e1, e2]
      simp [observe, clapGetArg, clapParsedNonOpt, clapResetParser, zeroHandler]

theorem parseN_registry (n : Nat) (argv : List CString) (h : CLAPhandler) :
    (parseN n argv h).flags = h.flags ∧ (parseN n argv h).subcommands = h.subcommands := by
  induction n generalizing h with
  | zero => exact ⟨rfl, rfl⟩
  | succ n ih =>
    obtain ⟨e1, e2, -⟩ := clapParse_flag_frame argv.length argv h
    obtain ⟨i1, i2⟩ := ih (clapParse argv.length argv h).2
    exact ⟨i1.trans e1, i2.trans e2⟩

/-- C10 (idempotent reset): after `clapResetParser`, whatever the handler was
before, the host loop over `argv` makes the same observations (return value,
recorded flag, flag value, positional argument, active subcommand) as from the
zero-initialised handler with the same registry; with enough fuel that loop
runs to the call returning `CLAP_FALSE`; and a second pass, started by
`clapResetParser` after any number of calls of a first pass, makes the same
observations as the first. -/
theorem reset_reproduces_trace (argv : List CString) (h : CLAPhandler) :
    (∀ fuel, parseTrace fuel argv (clapResetParser h) =
      parseTrace fuel argv (zeroHandler h.flags h.subcommands)) ∧
    (∀ fuel, callsLeft argv (clapResetParser h) < fuel →
      ∃ pre last, parseTrace fuel argv (clapResetParser h) = pre ++ [last] ∧
        last.ret = false ∧ pre.all (fun o => o.ret) = true) ∧
    (∀ n fuel, parseTrace fuel argv (clapResetParser (parseN n argv (clapResetParser h))) =
      parseTrace fuel argv (clapResetParser h)) := by
  refine ⟨parseTrace_reset_eq_zero argv h, fun fuel hf => parseTrace_ends argv fuel _ hf, ?_⟩
  intro n fuel
  obtain ⟨e1, e2⟩ := parseN_registry n argv (clapResetParser h)
  rw [parseTrace_reset_eq_zero, parseTrace_reset_eq_zero argv h, e1, e2]
  rfl

/-- Instance: `build --jobs 4 -v x`, parsed after a
reset of the handler left by a first pass, against the zero-initialised
handler. -/
theorem reset_reproduces_trace_witness :
    parseTrace 20 [cstr "build", cstr "--jobs", cstr "4", cstr "-v", cstr "x"]
        (clapResetParser (parseN 3 [cstr "build", cstr "--jobs", cstr "4", cstr "-v", cstr "x"]
          buildJobs)) =
      parseTrace 20 [cstr "build", cstr "--jobs", cstr "4", cstr "-v", cstr "x"]
        (zeroHandler buildJobs.flags buildJobs.subcommands) ∧
    ∃ pre last,
      parseTrace 20 [cstr "build", cstr "--jobs", cstr "4", cstr "-v", cstr "x"]
        (clapResetParser (parseN 3 [cstr "build", cstr "--jobs", cstr "4", cstr "-v", cstr "x"]
          buildJobs)) = pre ++ [last] ∧
      last.ret = false ∧ pre.all (fun o => o.ret) = true :=
  ⟨((reset_reproduces_trace [cstr "build", cstr "--jobs", cstr "4", cstr "-v", cstr "x"]
      (parseN 3 [cstr "build", cstr "--jobs", cstr "4", cstr "-v", cstr "x"] buildJobs)).1
      20).trans (by decide),
   (reset_reproduces_trace [cstr "build", cstr "--jobs", cstr "4", cstr "-v", cstr "x"]
      (parseN 3 [cstr "build", cstr "--jobs", cstr "4", cstr "-v", cstr "x"] buildJobs)).2.1
      20 (by decide)⟩

/-! ## The active subcommand -/

theorem longFlagBody_snapshot (argc : Nat) (argv : List CString) (h : CLAPhandler) (i : Nat)
    (arg : Option CString) :
    (longFlagBody argc argv h i arg).current_non_opt = h.current_non_opt ∧
    (longFlagBody argc argv h i arg).next_is_no_opt = h.next_is_no_opt ∧
    (longFlagBody argc argv h i arg).current_arg_index = h.current_arg_index := by
  unfold longFlagBody
  simp only
  split <;> (try split) <;> (try split) <;> simp

theorem clapMoveToNextCharOrNextArg_snapshot (h : CLAPhandler) :
    (clapMoveToNextCharOrNextArg h).current_non_opt = h.current_non_opt ∧
    (clapMoveToNextCharOrNextArg h).next_is_no_opt = h.next_is_no_opt := by
  unfold clapMoveToNextCharOrNextArg
  simp only
  split <;> simp

theorem shortFlagBody_snapshot (argc : Nat) (argv : List CString) (h : CLAPhandler) (i : Nat)
    (cur : CString) :
    (shortFlagBody argc argv h i cur).current_non_opt = h.current_non_opt ∧
    (shortFlagBody argc argv h i cur).next_is_no_opt = h.next_is_no_opt := by
  unfold shortFlagBody
  simp only
  split
  · simpa using clapMoveToNextCharOrNextArg_snapshot { h with current_flag := some i }
  · simp
  · split
    · simp
    · split <;> simp

/-- What a call does to the active subcommand: it is kept, or, when none was
active, set to an entry whose name is the current argument, an argument of at
least two characters. -/
theorem clapParse_subcommand_frame (argc : Nat) (argv : List CString) (h : CLAPhandler) :
    (clapParse argc argv h).2.subcommand = h.subcommand ∨
    (h.subcommand = none ∧ h.arg_index < argc ∧ 2 ≤ (argvAt argv h.arg_index).length ∧
      ∃ k sc, (clapParse argc argv h).2.subcommand = some k ∧ h.subcommands[k]? = some sc ∧
        sc.name = argvAt argv h.arg_index) := by
  rcases clapParse_cases argc argv h with hge | ⟨hlt, hlen⟩ | ⟨hlt, hlen, hw⟩ | ⟨hlt, hl, hcur⟩ |
    ⟨hlt, hl, text, hcur, ht⟩ | ⟨hlt, hl, c, rest, hcur, hc⟩
  · rw [clapParse_exhausted _ _ _ hge]
    exact Or.inl rfl
  · rw [clapParse_tiny _ _ _ hlt hlen]
    exact Or.inl (by simp [fetchArg])
  · rw [clapParse_word _ _ _ hlt hlen hw]
    cases hs : h.subcommand with
    | some k0 => exact Or.inl (by simp [fetchArg, hs])
    | none =>
      simp only [Option.isNone_none, if_true]
      cases hk : firstIdx (fun sc => strcmpEq sc.name (argvAt argv h.arg_index)) h.subcommands with
      | none => exact Or.inl (by simp [fetchArg, hs])
      | some k =>
        obtain ⟨⟨x, hx, hpx⟩, -⟩ := (firstIdx_eq_some_iff _ _ _).1 hk
        have hxn : x.name = argvAt argv h.arg_index := by simpa [strcmpEq] using hpx
        exact Or.inr ⟨trivial, hlt, hlen, k, x, rfl, hx, hxn⟩
  · rw [clapParse_dashdash _ _ _ hlt hl hcur]
    exact Or.inl (by simp [fetchArg])
  · rw [clapParse_long _ _ _ hlt hl text hcur ht]
    cases firstIdx (longCandidate { fetchArg argv h with current_non_opt := none } text)
        h.flags with
    | some i =>
      left
      have := (longFlagBody_frame argc argv { fetchArg argv h with current_non_opt := none } i
        (attachedArg ('-' :: '-' :: text))).2.2.1
      simpa [fetchArg] using this
    | none => exact Or.inl (by simp [fetchArg])
  · by_cases h0 : h.current_arg_index = 0
    · rw [clapParse_cluster_open _ _ _ hlt hl c rest hcur hc h0]
      exact Or.inl (by simp [fetchArg])
    · rw [clapParse_short _ _ _ hlt hl c rest hcur hc h0]
      cases firstIdx (shortCandidate { fetchArg argv h with current_non_opt := none }
          (charAt ('-' :: c :: rest) h.current_arg_index)) h.flags with
      | some i =>
        left
        have := (shortFlagBody_frame argc argv { fetchArg argv h with current_non_opt := none } i
          ('-' :: c :: rest)).2.2.1
        simpa [fetchArg] using this
      | none =>
        left
        have := (clapMoveToNextCharOrNextArg_frame
          { fetchArg argv h with current_non_opt := none, current_flag := none }).2.2.1
        simpa [fetchArg] using this

/-- C11, counterexample: with the subcommands `build` and `-x` registered, the
arguments `build` `-x` activate `build` on the first call; the second and
third calls scan `-x` as a short-flag cluster, keep `build` active, and never
report `-x` as a positional argument. -/
theorem dash_subcommand_name_scanned_as_cluster :
    (parseN 1 [cstr "build", cstr "-x"] buildAndDashX).subcommand = some 0 ∧
    (parseN 1 [cstr "build", cstr "-x"] buildAndDashX).arg_index = 1 ∧
    (⟨cstr "-x"⟩ : CLAPsubcommand) ∈ (parseN 1 [cstr "build", cstr "-x"] buildAndDashX).subcommands ∧
    (parseN 2 [cstr "build", cstr "-x"] buildAndDashX).subcommand = some 0 ∧
    clapParsedNonOpt (parseN 2 [cstr "build", cstr "-x"] buildAndDashX) = none ∧
    (parseN 3 [cstr "build", cstr "-x"] buildAndDashX).subcommand = some 0 ∧
    clapParsedNonOpt (parseN 3 [cstr "build", cstr "-x"] buildAndDashX) = none ∧
    (parseN 3 [cstr "build", cstr "-x"] buildAndDashX).arg_index = 2 := by
  decide

/-- C11, amended: in a state in which a subcommand is active, a call of
`clapParse` leaves the active subcommand unchanged, whatever the argument
vector.  When the current argument equals a registered subcommand name, it is
reported as a positional argument if the latch is on, or the name does not
begin with `-`, or it has fewer than two characters; otherwise (latch off, a
name of two or more characters beginning with `-`) it is scanned as a flag
token and no positional argument is reported. -/
theorem active_subcommand_fixed (argv : List CString) (h : CLAPhandler) (k : Nat)
    (hk : h.subcommand = some k) :
    (clapParse argv.length argv h).2.subcommand = some k ∧
    (∀ sc ∈ h.subcommands, h.arg_index < argv.length → argvAt argv h.arg_index = sc.name →
      ((h.next_is_no_opt = true ∨ charAt sc.name 0 ≠ '-' ∨ sc.name.length < 2) →
        clapParsedNonOpt (clapParse argv.length argv h).2 = some sc.name) ∧
      (h.next_is_no_opt = false ∧ charAt sc.name 0 = '-' ∧ 2 ≤ sc.name.length →
        clapParsedNonOpt (clapParse argv.length argv h).2 = none)) := by
  constructor
  · rcases clapParse_subcommand_frame argv.length argv h with e | ⟨e, -⟩
    · rw [e, hk]
    · rw [hk] at e
      exact absurd e (by simp)
  · intro sc _ hlt hname
    have hsub : h.subcommand.isNone = false := by simp [hk]
    constructor
    · intro hor
      by_cases hlen : sc.name.length < 2
      · rw [clapParse_tiny _ _ _ hlt (by rw [hname]; exact hlen)]
        simp [clapParsedNonOpt, fetchArg, hname]
      · have hw : h.next_is_no_opt = true ∨ charAt (argvAt argv h.arg_index) 0 ≠ '-' := by
          rw [hname]
          rcases hor with h1 | h1 | h1
          · exact Or.inl h1
          · exact Or.inr h1
          · exact absurd h1 hlen
        rw [clapParse_word _ _ _ hlt (by rw [hname]; omega) hw]
        simp [hsub, clapParsedNonOpt, fetchArg, hname]
    · rintro ⟨hl, hd, hlen⟩
      rcases clapParse_cases argv.length argv h with hge | ⟨-, hlen'⟩ | ⟨-, -, hw⟩ |
        ⟨-, -, hcur⟩ | ⟨-, -, text, hcur, ht⟩ | ⟨-, -, c, rest, hcur, hc⟩
      · omega
      · rw [hname] at hlen'
        omega
      · rw [hname] at hw
        rcases hw with hw | hw
        · rw [hl] at hw
          exact absurd hw (by simp)
        · exact absurd hd hw
      · rw [clapParse_dashdash _ _ _ hlt hl hcur]
        simp [clapParsedNonOpt]
      · rw [clapParse_long _ _ _ hlt hl text hcur ht]
        cases firstIdx (longCandidate { fetchArg argv h with current_non_opt := none } text)
            h.flags with
        | some i =>
          have := (longFlagBody_snapshot argv.length argv
            { fetchArg argv h with current_non_opt := none } i
            (attachedArg ('-' :: '-' :: text))).1
          simpa [clapParsedNonOpt] using this
        | none => simp [clapParsedNonOpt]
      · by_cases h0 : h.current_arg_index = 0
        · rw [clapParse_cluster_open _ _ _ hlt hl c rest hcur hc h0]
          simp [clapParsedNonOpt]
        · rw [clapParse_short _ _ _ hlt hl c rest hcur hc h0]
          cases firstIdx (shortCandidate { fetchArg argv h with current_non_opt := none }
              (charAt ('-' :: c :: rest) h.current_arg_index)) h.flags with
          | some i =>
            have := (shortFlagBody_snapshot argv.length argv
              { fetchArg argv h with current_non_opt := none } i ('-' :: c :: rest)).1
            simpa [clapParsedNonOpt] using this
          | none =>
            have := (clapMoveToNextCharOrNextArg_snapshot
              { fetchArg argv h with current_non_opt := none, current_flag := none }).1
            simpa [clapParsedNonOpt] using this

/-- Instance: after `build` in `build build`, with `build` registered, the
second `build` keeps the active subcommand and is reported as positional. -/
theorem active_subcommand_fixed_witness :
    (clapParse 2 [cstr "build", cstr "build"]
      (parseN 1 [cstr "build", cstr "build"] buildOnly)).2.subcommand = some 0 ∧
    clapParsedNonOpt (clapParse 2 [cstr "build", cstr "build"]
      (parseN 1 [cstr "build", cstr "build"] buildOnly)).2 = some (cstr "build") :=
  ⟨(active_subcommand_fixed [cstr "build", cstr "build"]
      (parseN 1 [cstr "build", cstr "build"] buildOnly) 0 (by decide)).1,
   ((active_subcommand_fixed [cstr "build", cstr "build"]
      (parseN 1 [cstr "build", cstr "build"] buildOnly) 0 (by decide)).2 ⟨cstr "build"⟩
      (by decide) (by decide) (by decide)).1 (Or.inr (Or.inl (by decide)))⟩

/-! ## Values attached to long flags -/

theorem attachedArg_eq_attachedValue (s : CString) : attachedArg s = attachedValue s := by
  induction s with
  | nil => rfl
  | cons x xs ih =>
    by_cases hx : x = '='
    · subst hx
      simp [attachedArg, attachedValue, strchr]
    · have ih' : Option.map List.tail (strchr xs '=') =
          attachedValue xs := ih
      have hb : (x != '=') = true := by simpa using hx
      simp only [attachedArg, strchr, hx, if_false, ih']
      simp only [attachedValue, List.dropWhile, hb]

/-- A call that does not find the arguments exhausted fetches the argument
under the cursor. -/
theorem clapParse_current_arg (argv : List CString) (h : CLAPhandler)
    (hlt : h.arg_index < argv.length) :
    (clapParse argv.length argv h).2.current_arg = some (argvAt argv h.arg_index) := by
  have hge : ¬ argv.length ≤ h.arg_index := by omega
  simp only [clapParse, ge_iff_le, hge, if_false]
  split
  · simp [fetchArg]
  · split
    · split
      · split
        · simp [fetchArg]
        · split
          · simp only [longFlagBody, fetchArg]
            split <;> (try split) <;> (try split) <;> simp
          · simp [fetchArg]
      · split
        · simp [fetchArg]
        · split
          · simp only [shortFlagBody, clapMoveToNextCharOrNextArg, fetchArg]
            split <;> (try split) <;> (try split) <;> simp
          · simp only [clapMoveToNextCharOrNextArg, fetchArg]
            split <;> simp
    · split <;> simp [fetchArg]

/-- C12 (misused value): when the long-flag loop selects a flag of arity none
for the token `--text`, the call returns `CLAP_TRUE`, advances `arg_index` by
exactly one and leaves the value unset; the flag is not recorded when the text
after the first `=` of the token is non-empty, and is recorded when the token
has no `=` or nothing after it. -/
theorem misused_value_on_no_arg_flag (argv : List CString) (h : CLAPhandler) (text : CString)
    (i : Nat)
    (hlt : h.arg_index < argv.length) (hl : h.next_is_no_opt = false)
    (hcur : argvAt argv h.arg_index = '-' :: '-' :: text) (ht : text ≠ [])
    (hsel : firstIdx (longCandidate h text) h.flags = some i)
    (hty : (h.flagAt i).arg_type = CLAP_FLAG_NO_ARG) :
    (clapParse argv.length argv h).1 = true ∧
    (clapParse argv.length argv h).2.arg_index = h.arg_index + 1 ∧
    (clapParse argv.length argv h).2.current_flag_arg = none ∧
    clapGetArg (clapParse argv.length argv h).2 = none ∧
    ((∃ c v, attachedValue ('-' :: '-' :: text) = some (c :: v)) →
      (clapParse argv.length argv h).2.current_flag = none) ∧
    (attachedValue ('-' :: '-' :: text) = none ∨ attachedValue ('-' :: '-' :: text) = some [] →
      (clapParse argv.length argv h).2.current_flag = some i) := by
  simp only [CLAPhandler.flagAt, List.getD_eq_getElem?_getD] at hty
  rw [clapParse_long _ _ _ hlt hl text hcur ht,
    longCandidate_congr h { fetchArg argv h with current_non_opt := none } rfl rfl, hsel,
    attachedArg_eq_attachedValue]
  refine ⟨rfl, ?_, ?_, ?_, ?_, ?_⟩
  · by_cases hne : nonEmptyArg (attachedValue ('-' :: '-' :: text)) = true <;>
      simp [longFlagBody, CLAPhandler.flagAt, fetchArg, hty, hne]
  · by_cases hne : nonEmptyArg (attachedValue ('-' :: '-' :: text)) = true <;>
      simp [longFlagBody, CLAPhandler.flagAt, fetchArg, hty, hne]
  · by_cases hne : nonEmptyArg (attachedValue ('-' :: '-' :: text)) = true <;>
      simp [longFlagBody, clapGetArg, CLAPhandler.flagAt, fetchArg, hty, hne]
  · rintro ⟨c, v, hv⟩
    simp [longFlagBody, CLAPhandler.flagAt, fetchArg, hty, hv, nonEmptyArg]
  · rintro (hv | hv) <;>
      simp [longFlagBody, CLAPhandler.flagAt, fetchArg, hty, hv, nonEmptyArg]

/-- Instance: `--foo=1` and `--foo` with `foo` taking no argument. -/
theorem misused_value_on_no_arg_flag_witness :
    ((clapParse 1 [cstr "--foo=1"] fooOnly).2.current_flag = none ∧
      (clapParse 1 [cstr "--foo=1"] fooOnly).2.arg_index = 1) ∧
    ((clapParse 1 [cstr "--foo"] fooOnly).2.current_flag = some 0 ∧
      clapGetArg (clapParse 1 [cstr "--foo"] fooOnly).2 = none) := by
  have A := misused_value_on_no_arg_flag [cstr "--foo=1"] fooOnly (cstr "foo=1") 0 (by decide)
    (by decide) (by decide) (by decide) (by decide) (by decide)
  have B := misused_value_on_no_arg_flag [cstr "--foo"] fooOnly (cstr "foo") 0 (by decide)
    (by decide) (by decide) (by decide) (by decide) (by decide)
  exact ⟨⟨A.2.2.2.2.1 ⟨'1', [], by decide⟩, A.2.1⟩, ⟨B.2.2.2.2.2 (Or.inl (by decide)), B.2.2.2.1⟩⟩

/-- C13 (optional long flag): when the long-flag loop selects a flag of arity
optional for the token `--text`, the call records that flag, its value is the
text after the first `=` of the token when that text is non-empty and is unset
otherwise, and `arg_index` advances by exactly one, so that the next call
fetches the following element of `argv`. -/
theorem optional_long_flag_value (argv : List CString) (h : CLAPhandler) (text : CString)
    (i : Nat)
    (hlt : h.arg_index < argv.length) (hl : h.next_is_no_opt = false)
    (hcur : argvAt argv h.arg_index = '-' :: '-' :: text) (ht : text ≠ [])
    (hsel : firstIdx (longCandidate h text) h.flags = some i)
    (hty : (h.flagAt i).arg_type = CLAP_FLAG_OPT_ARG) :
    (clapParse argv.length argv h).1 = true ∧
    (clapParse argv.length argv h).2.current_flag = some i ∧
    clapGetArg (clapParse argv.length argv h).2 =
      (match attachedValue ('-' :: '-' :: text) with
       | some (c :: v) => some (c :: v)
       | _ => none) ∧
    (clapParse argv.length argv h).2.arg_index = h.arg_index + 1 ∧
    (h.arg_index + 1 < argv.length →
      (clapParse argv.length argv (clapParse argv.length argv h).2).2.current_arg =
        some (argvAt argv (h.arg_index + 1))) := by
  simp only [CLAPhandler.flagAt, List.getD_eq_getElem?_getD] at hty
  have hidx : (clapParse argv.length argv h).2.arg_index = h.arg_index + 1 := by
    rw [clapParse_long _ _ _ hlt hl text hcur ht,
      longCandidate_congr h { fetchArg argv h with current_non_opt := none } rfl rfl, hsel]
    by_cases hne : nonEmptyArg (attachedArg ('-' :: '-' :: text)) = true <;>
      simp [longFlagBody, CLAPhandler.flagAt, fetchArg, hty, hne]
  refine ⟨?_, ?_, ?_, hidx, ?_⟩
  · exact clapParse_ret_of_lt argv h hlt
  · rw [clapParse_long _ _ _ hlt hl text hcur ht,
      longCandidate_congr h { fetchArg argv h with current_non_opt := none } rfl rfl, hsel]
    by_cases hne : nonEmptyArg (attachedArg ('-' :: '-' :: text)) = true <;>
      simp [longFlagBody, CLAPhandler.flagAt, fetchArg, hty, hne]
  · rw [clapParse_long _ _ _ hlt hl text hcur ht,
      longCandidate_congr h { fetchArg argv h with current_non_opt := none } rfl rfl, hsel,
      attachedArg_eq_attachedValue]
    cases hv : attachedValue ('-' :: '-' :: text) with
    | none => simp [longFlagBody, clapGetArg, CLAPhandler.flagAt, fetchArg, hty, nonEmptyArg]
    | some v =>
      cases v with
      | nil => simp [longFlagBody, clapGetArg, CLAPhandler.flagAt, fetchArg, hty, nonEmptyArg]
      | cons c v =>
        simp [longFlagBody, clapGetArg, CLAPhandler.flagAt, fetchArg, hty, nonEmptyArg]
  · intro hnext
    rw [clapParse_current_arg argv _ (by rw [hidx]; exact hnext), hidx]

/-- Instance: `--out=x y` and `--out y` with `out` of arity optional. -/
theorem optional_long_flag_value_witness :
    (clapGetArg (clapParse 2 [cstr "--out=x", cstr "y"] outOptional).2 = some (cstr "x") ∧
      (clapParse 2 [cstr "--out=x", cstr "y"] outOptional).2.arg_index = 1) ∧
    (clapGetArg (clapParse 2 [cstr "--out", cstr "y"] outOptional).2 = none ∧
      (clapParse 2 [cstr "--out", cstr "y"] outOptional).2.arg_index = 1) := by
  have A := optional_long_flag_value [cstr "--out=x", cstr "y"] outOptional (cstr "out=x") 0
    (by decide) (by decide) (by decide) (by decide) (by decide) (by decide)
  have B := optional_long_flag_value [cstr "--out", cstr "y"] outOptional (cstr "out") 0
    (by decide) (by decide) (by decide) (by decide) (by decide) (by decide)
  exact ⟨⟨A.2.2.1.trans (by decide), A.2.2.2.1⟩, ⟨B.2.2.1.trans (by decide), B.2.2.2.1⟩⟩

/-! ## Registration -/

theorem badLongName_iff (long_name : Option CString) :
    badLongName long_name = false ↔
    ∀ ln, long_name = some ln → ∀ c ∈ ln, c.isAlphanum = true ∨ c = '-' := by
  cases long_name with
  | none => simp [badLongName]
  | some ln =>
    simp only [badLongName, List.any_eq_false, Bool.and_eq_true, Bool.not_eq_true', decide_eq_false_iff_not,
      not_and, not_not, Option.some.injEq, forall_eq']
    constructor
    · intro hall c hc
      by_cases ha : c.isAlphanum = true
      · exact Or.inl ha
      · exact Or.inr (hall c hc (by simpa using ha))
    · intro hall c hc ha
      rcases hall c hc with h1 | h1
      · rw [ha] at h1
        exact absurd h1 (by simp)
      · exact h1

/-- The two outcomes of `clapRegisterFlag`: a valid registration appends the
flag, any other leaves the handler as it was. -/
theorem clapRegisterFlag_cases (h : CLAPhandler) (long_name : Option CString)
    (short_name : Char) (arg_type : Int) (subcommand_name : Option CString) :
    (validRegistration h long_name short_name arg_type ∧
      clapRegisterFlag h long_name short_name arg_type subcommand_name =
        { h with flags := h.flags ++
            [⟨long_name, short_name, CLAPflagArgType.ofInt arg_type, subcommand_name⟩] }) ∨
    (¬ validRegistration h long_name short_name arg_type ∧
      clapRegisterFlag h long_name short_name arg_type subcommand_name = h) := by
  unfold clapRegisterFlag validRegistration
  by_cases h1 : h.flag_count ≥ CLAP_FLAG_CAPACITY
  · right
    refine ⟨fun hv => ?_, by rw [if_pos h1]⟩
    have := hv.1
    omega
  by_cases h2 : long_name = none ∧ short_name = CLAP_FLAG_NO_SHORT
  · right
    refine ⟨fun hv => ?_, by rw [if_neg h1, if_pos h2]⟩
    rcases hv.2.1 with h' | h'
    · exact h' h2.1
    · exact h' h2.2
  by_cases h3 : badLongName long_name = true
  · right
    refine ⟨fun hv => ?_, by rw [if_neg h1, if_neg h2, if_pos h3]⟩
    have := (badLongName_iff long_name).2 hv.2.2.1
    rw [h3] at this
    exact absurd this (by simp)
  by_cases h4 : short_name ≠ CLAP_FLAG_NO_SHORT ∧ short_name.isAlpha = false
  · right
    refine ⟨fun hv => ?_, by rw [if_neg h1, if_neg h2, if_neg h3, if_pos h4]⟩
    have := hv.2.2.2.1 h4.1
    rw [h4.2] at this
    exact absurd this (by simp)
  by_cases h5 : arg_type < 0 ∨ arg_type > 2
  · right
    refine ⟨fun hv => ?_, by rw [if_neg h1, if_neg h2, if_neg h3, if_neg h4, if_pos h5]⟩
    have := hv.2.2.2.2
    omega
  · left
    refine ⟨⟨by omega, ?_, ?_, ?_, by omega⟩,
      by rw [if_neg h1, if_neg h2, if_neg h3, if_neg h4, if_neg h5]⟩
    · by_cases hl : long_name = none
      · right
        intro hs
        exact h2 ⟨hl, hs⟩
      · exact Or.inl hl
    · exact (badLongName_iff long_name).1 (by simpa using h3)
    · intro hs
      by_contra hna
      exact h4 ⟨hs, by simpa using hna⟩

theorem ofInt_toInt (arg_type : Int) (hv : arg_type = 0 ∨ arg_type = 1 ∨ arg_type = 2) :
    (CLAPflagArgType.ofInt arg_type).toInt = arg_type := by
  rcases hv with rfl | rfl | rfl <;> rfl

/-- C14 (registration): `clapRegisterFlag` appends one flag holding the four
given fields at position `flag_count`, raises `flag_count` by one and leaves
the earlier entries and every other field as they were, exactly when the
registration is valid: `flag_count < CLAP_FLAG_CAPACITY`, one of the names is
present, a present long name has only alphanumeric characters and hyphens, a
present short name is alphabetic, and the arity is 0, 1 or 2.  In every other
case the handler is left unchanged. -/
theorem clapRegisterFlag_valid_iff (h : CLAPhandler) (long_name : Option CString)
    (short_name : Char) (arg_type : Int) (subcommand_name : Option CString) :
    (validRegistration h long_name short_name arg_type →
      clapRegisterFlag h long_name short_name arg_type subcommand_name =
        { h with flags := h.flags ++
            [⟨long_name, short_name, CLAPflagArgType.ofInt arg_type, subcommand_name⟩] } ∧
      (CLAPflagArgType.ofInt arg_type).toInt = arg_type ∧
      (clapRegisterFlag h long_name short_name arg_type subcommand_name).flags[h.flag_count]? =
        some ⟨long_name, short_name, CLAPflagArgType.ofInt arg_type, subcommand_name⟩ ∧
      (clapRegisterFlag h long_name short_name arg_type subcommand_name).flag_count =
        h.flag_count + 1 ∧
      (∀ j, j < h.flag_count →
        (clapRegisterFlag h long_name short_name arg_type subcommand_name).flags[j]? =
          h.flags[j]?)) ∧
    (¬ validRegistration h long_name short_name arg_type →
      clapRegisterFlag h long_name short_name arg_type subcommand_name = h) ∧
    ((clapRegisterFlag h long_name short_name arg_type subcommand_name).flag_count =
        h.flag_count + 1 ↔
      validRegistration h long_name short_name arg_type) := by
  rcases clapRegisterFlag_cases h long_name short_name arg_type subcommand_name with
    ⟨hv, e⟩ | ⟨hv, e⟩
  · refine ⟨fun _ => ⟨e, ofInt_toInt arg_type hv.2.2.2.2, ?_, ?_, ?_⟩, fun hn => absurd hv hn, ?_⟩
    · rw [e]
      simp [CLAPhandler.flag_count]
    · rw [e]
      simp [CLAPhandler.flag_count]
    · intro j hj
      rw [e]
      simp only [CLAPhandler.flag_count] at hj
      simp [List.getElem?_append_left hj]
    · rw [e]
      simp [CLAPhandler.flag_count, hv]
  · refine ⟨fun hp => absurd hp hv, fun _ => e, ?_⟩
    rw [e]
    constructor
    · intro hc
      omega
    · intro hp
      exact absurd hp hv

/-- Instance: registering `--out`/`o` with arity 1 in the empty registry. -/
theorem clapRegisterFlag_valid_iff_witness :
    clapRegisterFlag (zeroHandler [] []) (some (cstr "out")) 'o' 1 none =
      zeroHandler [⟨some (cstr "out"), 'o', CLAP_FLAG_OPT_ARG, none⟩] [] :=
  ((clapRegisterFlag_valid_iff (zeroHandler [] []) (some (cstr "out")) 'o' 1 none).1
    ⟨by decide, Or.inl (by simp), by
      intro ln hln
      simp only [Option.some.injEq] at hln
      subst hln
      decide, fun _ => by decide, Or.inr (Or.inl rfl)⟩).1

/-- C15, counterexample: from the empty registry, `clapRegisterFlag("", 'a',
CLAP_FLAG_NO_ARG, NULL)` and `clapRegisterFlag("", CLAP_FLAG_NO_SHORT,
CLAP_FLAG_NO_ARG, NULL)` are both accepted, and register flags whose long name
is present and empty. -/
theorem empty_long_name_is_registered :
    (registerFlags [⟨some [], 'a', 0, none⟩, ⟨some [], CLAP_FLAG_NO_SHORT, 0, none⟩]
      (zeroHandler [] [])).flags =
    [⟨some [], 'a', CLAP_FLAG_NO_ARG, none⟩,
     ⟨some [], CLAP_FLAG_NO_SHORT, CLAP_FLAG_NO_ARG, none⟩] := by
  decide

theorem clapRegisterFlag_wellFormed (h : CLAPhandler) (long_name : Option CString)
    (short_name : Char) (arg_type : Int) (subcommand_name : Option CString)
    (hall : ∀ f ∈ h.flags, namesWellFormed f) :
    ∀ f ∈ (clapRegisterFlag h long_name short_name arg_type subcommand_name).flags,
      namesWellFormed f := by
  rcases clapRegisterFlag_cases h long_name short_name arg_type subcommand_name with
    ⟨hv, e⟩ | ⟨-, e⟩
  · rw [e]
    intro f hf
    simp only [List.mem_append, List.mem_singleton] at hf
    rcases hf with hf | rfl
    · exact hall f hf
    · exact ⟨hv.2.1, hv.2.2.1, hv.2.2.2.1⟩
  · rw [e]
    exact hall

/-- C15, amended: after any sequence of `clapRegisterFlag` calls starting from
an empty registry, every flag in the registry has at least one of its names
present, a long name that (if present) contains only characters of
`[A-Za-z0-9-]`, and a short name that (if present) is alphabetic; a present
long name may be empty. -/
theorem registered_flags_wellFormed (reqs : List FlagRequest) (h : CLAPhandler)
    (hempty : h.flags = []) (f : CLAPflag) (hf : f ∈ (registerFlags reqs h).flags) :
    namesWellFormed f := by
  have key : ∀ (reqs : List FlagRequest) (h : CLAPhandler),
      (∀ f ∈ h.flags, namesWellFormed f) →
      ∀ f ∈ (registerFlags reqs h).flags, namesWellFormed f := by
    intro reqs
    induction reqs with
    | nil => intro h hall; exact hall
    | cons r rs ih =>
      intro h hall
      exact ih _ (clapRegisterFlag_wellFormed h r.long_name r.short_name r.arg_type
        r.subcommand_name hall)
  exact key reqs h (by rw [hempty]; intro f hf; exact absurd hf (List.not_mem_nil f)) f hf

/-- Instance: of the requests `--out`/`o`, `--b@d`/`x` and short-only `v`, the
second is rejected and the flags registered for the other two are well
formed. -/
theorem registered_flags_wellFormed_witness :
    (registerFlags [⟨some (cstr "out"), 'o', 1, none⟩, ⟨some (cstr "b@d"), 'x', 0, none⟩,
        ⟨none, 'v', 0, none⟩] (zeroHandler [] [])).flags =
      [⟨some (cstr "out"), 'o', CLAP_FLAG_OPT_ARG, none⟩, ⟨none, 'v', CLAP_FLAG_NO_ARG, none⟩] ∧
    namesWellFormed ⟨some (cstr "out"), 'o', CLAP_FLAG_OPT_ARG, none⟩ ∧
    namesWellFormed ⟨none, 'v', CLAP_FLAG_NO_ARG, none⟩ :=
  ⟨by decide,
   registered_flags_wellFormed [⟨some (cstr "out"), 'o', 1, none⟩,
      ⟨some (cstr "b@d"), 'x', 0, none⟩, ⟨none, 'v', 0, none⟩] (zeroHandler [] []) rfl _
      (by decide),
   registered_flags_wellFormed [⟨some (cstr "out"), 'o', 1, none⟩,
      ⟨some (cstr "b@d"), 'x', 0, none⟩, ⟨none, 'v', 0, none⟩] (zeroHandler [] []) rfl _
      (by decide)⟩

/-! ## Queries and cursor after a short flag -/

/-- C16, failing input: with the subcommand `build` and a flag registered under
`build` with the short name `j` only, the arguments `build` `-j` activate
`build` and, on the third call, match that flag; the query
`clapParsedSubcommandFlag("build", CLAP_FLAG_NO_LONG, 'j')` then passes the
`NULL` long names to `strcmp` and has no defined result, although the flag is
matched, `build` is active and both names agree with the query.  The same
holds for a matched flag with a long name queried with the long name absent. -/
theorem subcommand_flag_query_undefined_on_null :
    (parseN 3 [cstr "build", cstr "-j"] buildShortOnly).current_flag = some 0 ∧
    clapParsedSubcommand (parseN 3 [cstr "build", cstr "-j"] buildShortOnly)
      (some (cstr "build")) = true ∧
    ((parseN 3 [cstr "build", cstr "-j"] buildShortOnly).flagAt 0).long_name = none ∧
    ((parseN 3 [cstr "build", cstr "-j"] buildShortOnly).flagAt 0).short_name = 'j' ∧
    clapParsedSubcommandFlag (parseN 3 [cstr "build", cstr "-j"] buildShortOnly)
      (cstr "build") none 'j' = none ∧
    (parseN 2 [cstr "build", cstr "--jobs", cstr "4"] buildJobs).current_flag = some 0 ∧
    clapParsedSubcommandFlag (parseN 2 [cstr "build", cstr "--jobs", cstr "4"] buildJobs)
      (cstr "build") (some (cstr "jobs")) 'j' = some true ∧
    clapParsedSubcommandFlag (parseN 2 [cstr "build", cstr "--jobs", cstr "4"] buildJobs)
      (cstr "build") none 'j' = none := by
  decide

/-- C17, failing input: with the flag `o` of arity required registered, the
only argument `-o` is opened by the first call; the second call reads `o` at
offset 1, finds no next element of `argv`, clears the match and advances
`arg_index` to 1, and leaves `current_arg_index` at 1. -/
theorem missing_short_value_keeps_offset :
    (parseN 1 [cstr "-o"] outputRequired).current_arg_index = 1 ∧
    firstIdx (shortCandidate (parseN 1 [cstr "-o"] outputRequired)
      (charAt (cstr "-o") 1)) (parseN 1 [cstr "-o"] outputRequired).flags = some 0 ∧
    ((parseN 1 [cstr "-o"] outputRequired).flagAt 0).arg_type = CLAP_FLAG_REQ_ARG ∧
    (clapParse 1 [cstr "-o"] (parseN 1 [cstr "-o"] outputRequired)).1 = true ∧
    (parseN 2 [cstr "-o"] outputRequired).current_flag = none ∧
    (parseN 2 [cstr "-o"] outputRequired).arg_index = 1 ∧
    (parseN 2 [cstr "-o"] outputRequired).current_arg_index = 1 := by
  decide

/-! ## Cursor bounds -/

theorem clapMoveToNextCharOrNextArg_offset (h : CLAPhandler) :
    (clapMoveToNextCharOrNextArg h).current_arg_index = 0 ∨
    ((clapMoveToNextCharOrNextArg h).arg_index = h.arg_index ∧
      (clapMoveToNextCharOrNextArg h).current_arg_index = h.current_arg_index + 1 ∧
      h.current_arg_index + 1 < h.current_arg_len) := by
  unfold clapMoveToNextCharOrNextArg
  simp only
  split
  · exact Or.inl rfl
  · rename_i hn
    simp only [ge_iff_le, not_le] at hn
    exact Or.inr ⟨rfl, rfl, hn⟩

theorem shortFlagBody_offset (argc : Nat) (argv : List CString) (h : CLAPhandler) (i : Nat)
    (cur : CString) :
    (shortFlagBody argc argv h i cur).current_arg_index = 0 ∨
    argc ≤ (shortFlagBody argc argv h i cur).arg_index ∨
    ((shortFlagBody argc argv h i cur).arg_index = h.arg_index ∧
      (shortFlagBody argc argv h i cur).current_arg_index = h.current_arg_index + 1 ∧
      h.current_arg_index + 1 < h.current_arg_len) := by
  unfold shortFlagBody
  simp only
  split
  · rcases clapMoveToNextCharOrNextArg_offset { h with current_flag := some i } with m | m
    · exact Or.inl m
    · exact Or.inr (Or.inr (by simpa using m))
  · exact Or.inl rfl
  · split
    · rename_i hmiss
      right
      left
      simpa using hmiss.2
    · left
      split <;> rfl

/-- A call on a character of a short-flag cluster keeps the latch off and
either resets the offset, or exhausts the arguments, or moves one character
forward inside the cluster. -/
theorem clapParse_short_offset (argv : List CString) (h : CLAPhandler) (c : Char)
    (rest : CString)
    (hlt : h.arg_index < argv.length) (hl : h.next_is_no_opt = false)
    (hcur : argvAt argv h.arg_index = '-' :: c :: rest) (hc : c ≠ '-')
    (h0 : h.current_arg_index ≠ 0) :
    (clapParse argv.length argv h).2.next_is_no_opt = false ∧
    ((clapParse argv.length argv h).2.current_arg_index = 0 ∨
      argv.length ≤ (clapParse argv.length argv h).2.arg_index ∨
      ((clapParse argv.length argv h).2.arg_index = h.arg_index ∧
        (clapParse argv.length argv h).2.current_arg_index = h.current_arg_index + 1 ∧
        h.current_arg_index + 1 < (argvAt argv h.arg_index).length)) := by
  rw [clapParse_short _ _ _ hlt hl c rest hcur hc h0]
  cases firstIdx (shortCandidate { fetchArg argv h with current_non_opt := none }
      (charAt ('-' :: c :: rest) h.current_arg_index)) h.flags with
  | some i =>
    have hb := shortFlagBody_offset argv.length argv
      { fetchArg argv h with current_non_opt := none } i ('-' :: c :: rest)
    have hs := (shortFlagBody_snapshot argv.length argv
      { fetchArg argv h with current_non_opt := none } i ('-' :: c :: rest)).2
    exact ⟨by simpa [fetchArg, hl] using hs, by simpa [fetchArg, strlen, hcur] using hb⟩
  | none =>
    have hb := clapMoveToNextCharOrNextArg_offset
      { fetchArg argv h with current_non_opt := none, current_flag := none }
    have hs := (clapMoveToNextCharOrNextArg_snapshot
      { fetchArg argv h with current_non_opt := none, current_flag := none }).2
    refine ⟨by simpa [fetchArg, hl] using hs, ?_⟩
    rcases hb with hb | hb
    · exact Or.inl (by simpa using hb)
    · exact Or.inr (Or.inr (by simpa [fetchArg, strlen, hcur] using hb))

/-- The cursor is inside a short-flag cluster whenever its character offset is
not 0 and an argument is left. -/
theorem clapParse_keeps_offset_in_bounds (argv : List CString) (h : CLAPhandler)
    (hI : h.arg_index < argv.length → h.current_arg_index ≠ 0 →
      h.next_is_no_opt = false ∧ 2 ≤ (argvAt argv h.arg_index).length ∧
      charAt (argvAt argv h.arg_index) 0 = '-' ∧ charAt (argvAt argv h.arg_index) 1 ≠ '-' ∧
      h.current_arg_index < (argvAt argv h.arg_index).length) :
    (clapParse argv.length argv h).2.arg_index < argv.length →
    (clapParse argv.length argv h).2.current_arg_index ≠ 0 →
      (clapParse argv.length argv h).2.next_is_no_opt = false ∧
      2 ≤ (argvAt argv (clapParse argv.length argv h).2.arg_index).length ∧
      charAt (argvAt argv (clapParse argv.length argv h).2.arg_index) 0 = '-' ∧
      charAt (argvAt argv (clapParse argv.length argv h).2.arg_index) 1 ≠ '-' ∧
      (clapParse argv.length argv h).2.current_arg_index <
        (argvAt argv (clapParse argv.length argv h).2.arg_index).length := by
  rcases clapParse_cases argv.length argv h with hge | ⟨hlt, hlen⟩ | ⟨hlt, hlen, hw⟩ |
    ⟨hlt, hl, hcur⟩ | ⟨hlt, hl, text, hcur, ht⟩ | ⟨hlt, hl, c, rest, hcur, hc⟩
  · rw [clapParse_exhausted _ _ _ hge]
    exact hI
  · have h0 : h.current_arg_index = 0 := by
      by_contra hne
      have := (hI hlt hne).2.1
      omega
    rw [clapParse_tiny _ _ _ hlt hlen]
    intro _ hne
    exact absurd (by simpa [fetchArg] using h0) hne
  · have h0 : h.current_arg_index = 0 := by
      by_contra hne
      obtain ⟨i1, -, i3, -⟩ := hI hlt hne
      rcases hw with hw | hw
      · rw [i1] at hw
        exact absurd hw (by simp)
      · exact hw i3
    rw [clapParse_word _ _ _ hlt hlen hw]
    intro _ hne
    exfalso
    apply hne
    split <;> simpa [fetchArg] using h0
  · have h0 : h.current_arg_index = 0 := by
      by_contra hne
      have := (hI hlt hne).2.2.2.1
      rw [hcur] at this
      exact this (by simp [charAt])
    rw [clapParse_dashdash _ _ _ hlt hl hcur]
    intro _ hne
    exact absurd (by simpa [fetchArg] using h0) hne
  · have h0 : h.current_arg_index = 0 := by
      by_contra hne
      have := (hI hlt hne).2.2.2.1
      rw [hcur] at this
      exact this (by simp [charAt])
    rw [clapParse_long _ _ _ hlt hl text hcur ht]
    intro _ hne
    exfalso
    apply hne
    cases firstIdx (longCandidate { fetchArg argv h with current_non_opt := none } text)
        h.flags with
    | some i =>
      have := (longFlagBody_snapshot argv.length argv
        { fetchArg argv h with current_non_opt := none } i
        (attachedArg ('-' :: '-' :: text))).2.2
      simpa [fetchArg, h0] using this
    | none => simpa [fetchArg] using h0
  · have hfacts : 2 ≤ (argvAt argv h.arg_index).length ∧
        charAt (argvAt argv h.arg_index) 0 = '-' ∧ charAt (argvAt argv h.arg_index) 1 ≠ '-' := by
      rw [hcur]
      refine ⟨by simp, by simp [charAt], by simpa [charAt] using hc⟩
    by_cases h0 : h.current_arg_index = 0
    · rw [clapParse_cluster_open _ _ _ hlt hl c rest hcur hc h0]
      intro _ _
      refine ⟨by simpa [fetchArg] using hl, by simpa [fetchArg] using hfacts.1,
        by simpa [fetchArg] using hfacts.2.1, by simpa [fetchArg] using hfacts.2.2, ?_⟩
      have := hfacts.1
      simp only [fetchArg]
      omega
    · obtain ⟨s1, s2⟩ := clapParse_short_offset argv h c rest hlt hl hcur hc h0
      intro hlt' hne
      rcases s2 with s2 | s2 | ⟨b1, b2, b3⟩
      · exact absurd s2 hne
      · omega
      · rw [b1, b2]
        exact ⟨s1, hfacts.1, hfacts.2.1, hfacts.2.2, b3⟩

/-- C18 (cursor in bounds): in every state reached from a reset parser by
calls of `clapParse` over one argument vector, with `argc` its length, if
`arg_index < argc` and `current_arg_index` is not 0 then the latch is off, the
argument under the cursor has at least two characters, begins with `-`, has a
second character other than `-`, and `current_arg_index` is less than its
length, so the short-flag character read at that offset is inside the
argument. -/
theorem cursor_in_bounds (argv : List CString) (h : CLAPhandler) (hr : ReachableOver argv h)
    (hlt : h.arg_index < argv.length) (h0 : h.current_arg_index ≠ 0) :
    h.next_is_no_opt = false ∧ 2 ≤ (argvAt argv h.arg_index).length ∧
    charAt (argvAt argv h.arg_index) 0 = '-' ∧ charAt (argvAt argv h.arg_index) 1 ≠ '-' ∧
    h.current_arg_index < (argvAt argv h.arg_index).length ∧
    (argvAt argv h.arg_index)[h.current_arg_index]? =
      some (charAt (argvAt argv h.arg_index) h.current_arg_index) := by
  have key : ∀ h, ReachableOver argv h → h.arg_index < argv.length → h.current_arg_index ≠ 0 →
      h.next_is_no_opt = false ∧ 2 ≤ (argvAt argv h.arg_index).length ∧
      charAt (argvAt argv h.arg_index) 0 = '-' ∧ charAt (argvAt argv h.arg_index) 1 ≠ '-' ∧
      h.current_arg_index < (argvAt argv h.arg_index).length := by
    intro h hr
    induction hr with
    | reset h1 =>
      intro _ hne
      exact absurd rfl hne
    | step h1 _ ih => exact clapParse_keeps_offset_in_bounds argv h1 ih
  obtain ⟨k1, k2, k3, k4, k5⟩ := key h hr hlt h0
  refine ⟨k1, k2, k3, k4, k5, ?_⟩
  simp [charAt, List.getElem?_eq_getElem k5]

/-- Instance: after the opening sub-step and the character `a` of `-abc`. -/
theorem cursor_in_bounds_witness :
    (parseN 2 [cstr "-abc"] (clapResetParser abcFlags)).current_arg_index = 2 ∧
    (parseN 2 [cstr "-abc"] (clapResetParser abcFlags)).current_arg_index <
      (argvAt [cstr "-abc"] (parseN 2 [cstr "-abc"] (clapResetParser abcFlags)).arg_index).length :=
  ⟨by decide,
   (cursor_in_bounds [cstr "-abc"] (parseN 2 [cstr "-abc"] (clapResetParser abcFlags))
      (ReachableOver.step _ (ReachableOver.step _ (ReachableOver.reset abcFlags)))
      (by decide) (by decide)).2.2.2.2.1⟩

/-! ## The snapshot -/

/-- A call leaves the handler as it was, or leaves no recorded flag, or leaves
no positional argument. -/
theorem clapParse_snapshot_frame (argc : Nat) (argv : List CString) (h : CLAPhandler) :
    (clapParse argc argv h).2 = h ∨
    (clapParse argc argv h).2.current_flag = none ∨
    (clapParse argc argv h).2.current_non_opt = none := by
  rcases clapParse_cases argc argv h with hge | ⟨hlt, hlen⟩ | ⟨hlt, hlen, hw⟩ | ⟨hlt, hl, hcur⟩ |
    ⟨hlt, hl, text, hcur, ht⟩ | ⟨hlt, hl, c, rest, hcur, hc⟩
  · rw [clapParse_exhausted _ _ _ hge]
    exact Or.inl rfl
  · rw [clapParse_tiny _ _ _ hlt hlen]
    exact Or.inr (Or.inl rfl)
  · rw [clapParse_word _ _ _ hlt hlen hw]
    right
    left
    split <;> rfl
  · rw [clapParse_dashdash _ _ _ hlt hl hcur]
    exact Or.inr (Or.inl rfl)
  · rw [clapParse_long _ _ _ hlt hl text hcur ht]
    right
    right
    cases firstIdx (longCandidate { fetchArg argv h with current_non_opt := none } text)
        h.flags with
    | some i =>
      have := (longFlagBody_snapshot argc argv
        { fetchArg argv h with current_non_opt := none } i
        (attachedArg ('-' :: '-' :: text))).1
      simpa using this
    | none => rfl
  · by_cases h0 : h.current_arg_index = 0
    · rw [clapParse_cluster_open _ _ _ hlt hl c rest hcur hc h0]
      exact Or.inr (Or.inl rfl)
    · rw [clapParse_short _ _ _ hlt hl c rest hcur hc h0]
      right
      right
      cases firstIdx (shortCandidate { fetchArg argv h with current_non_opt := none }
          (charAt ('-' :: c :: rest) h.current_arg_index)) h.flags with
      | some i =>
        have := (shortFlagBody_snapshot argc argv
          { fetchArg argv h with current_non_opt := none } i ('-' :: c :: rest)).1
        simpa using this
      | none =>
        have := (clapMoveToNextCharOrNextArg_snapshot
          { fetchArg argv h with current_non_opt := none, current_flag := none }).1
        simpa using this

/-- C19 (snapshot exclusivity): in every state reached from a reset parser by
calls of `clapParse`, a recorded flag and a positional argument are never both
present: `clapParsedNonOpt` reports nothing whenever a flag is recorded. -/
theorem snapshot_exclusive (h : CLAPhandler) (hr : Reachable h) :
    ¬ (h.current_flag ≠ none ∧ clapParsedNonOpt h ≠ none) := by
  have key : h.current_flag = none ∨ h.current_non_opt = none := by
    induction hr with
    | reset h1 => exact Or.inl rfl
    | step argv h1 _ ih =>
      rcases clapParse_snapshot_frame argv.length argv h1 with e | e | e
      · rw [e]
        exact ih
      · exact Or.inl e
      · exact Or.inr e
  rintro ⟨h1, h2⟩
  rcases key with k | k
  · exact h1 k
  · exact h2 k

/-- Instance: the states after `pos` and after `--foo` in `pos --foo`. -/
theorem snapshot_exclusive_witness :
    (clapParsedNonOpt (parseN 1 [cstr "pos", cstr "--foo"] (clapResetParser fooOnly)) =
        some (cstr "pos") ∧
      ¬ ((parseN 1 [cstr "pos", cstr "--foo"] (clapResetParser fooOnly)).current_flag ≠ none ∧
        clapParsedNonOpt (parseN 1 [cstr "pos", cstr "--foo"] (clapResetParser fooOnly))
          ≠ none)) ∧
    ((parseN 2 [cstr "pos", cstr "--foo"] (clapResetParser fooOnly)).current_flag = some 0 ∧
      ¬ ((parseN 2 [cstr "pos", cstr "--foo"] (clapResetParser fooOnly)).current_flag ≠ none ∧
        clapParsedNonOpt (parseN 2 [cstr "pos", cstr "--foo"] (clapResetParser fooOnly))
          ≠ none)) :=
  ⟨⟨by decide,
    snapshot_exclusive _ (Reachable.step [cstr "pos", cstr "--foo"] _ (Reachable.reset fooOnly))⟩,
   ⟨by decide,
    snapshot_exclusive _ (Reachable.step [cstr "pos", cstr "--foo"] _
      (Reachable.step [cstr "pos", cstr "--foo"] _ (Reachable.reset fooOnly)))⟩⟩

/-! ## Subcommand names of fewer than two characters -/

/-- C20 (short subcommand names): in every state reached from a reset parser
by calls of `clapParse`, the active subcommand, if any, is a registered entry
whose name has at least two characters; so an entry whose name has fewer than
two characters is never the active one and `clapParsedSubcommand` is false
for its name; and a call on an argument of fewer than two characters, such as
that name, reports the argument as positional and leaves the active
subcommand as it was. -/
theorem short_subcommand_never_active (h : CLAPhandler) (hr : Reachable h) :
    (∀ k, h.subcommand = some k → ∃ sc, h.subcommands[k]? = some sc ∧ 2 ≤ sc.name.length) ∧
    (∀ j sc, h.subcommands[j]? = some sc → sc.name.length < 2 → h.subcommand ≠ some j) ∧
    (∀ name : CString, name.length < 2 → clapParsedSubcommand h (some name) = false) ∧
    (∀ argv : List CString, h.arg_index < argv.length → (argvAt argv h.arg_index).length < 2 →
      (clapParse argv.length argv h).1 = true ∧
      clapParsedNonOpt (clapParse argv.length argv h).2 = some (argvAt argv h.arg_index) ∧
      (clapParse argv.length argv h).2.subcommand = h.subcommand) := by
  have key : ∀ k, h.subcommand = some k →
      ∃ sc, h.subcommands[k]? = some sc ∧ 2 ≤ sc.name.length := by
    induction hr with
    | reset h1 =>
      intro k hk
      simp [clapResetParser] at hk
    | step argv h1 _ ih =>
      intro k hk
      have hreg := (clapParse_flag_frame argv.length argv h1).2.1
      rw [hreg]
      rcases clapParse_subcommand_frame argv.length argv h1 with e | ⟨-, -, hlen, k', sc, e1, e2, e3⟩
      · exact ih k (by rw [← e]; exact hk)
      · rw [e1] at hk
        have hkk : k' = k := Option.some.inj hk
        subst hkk
        exact ⟨sc, e2, by rw [e3]; exact hlen⟩
  refine ⟨key, ?_, ?_, ?_⟩
  · intro j sc hj hlen hsub
    obtain ⟨sc', h1, h2⟩ := key j hsub
    rw [hj] at h1
    have : sc = sc' := Option.some.inj h1
    subst this
    omega
  · intro name hlen
    cases hsub : h.subcommand with
    | none => simp [clapParsedSubcommand, hsub]
    | some k =>
      obtain ⟨sc, h1, h2⟩ := key k hsub
      have hne : sc.name ≠ name := by
        intro he
        rw [he] at h2
        omega
      simp [clapParsedSubcommand, hsub, CLAPhandler.subcommandNameAt, h1, strcmpEq, hne]
  · intro argv hlt hlen
    rw [clapParse_tiny _ _ _ hlt hlen]
    simp [clapParsedNonOpt, fetchArg]

/-- Instance: with the subcommands `x` and `run` registered, `x` is reported
as positional and `run` is activated in `x run`. -/
theorem short_subcommand_never_active_witness :
    clapParsedNonOpt (parseN 1 [cstr "x", cstr "run"] (clapResetParser shortAndLongSub)) =
      some (cstr "x") ∧
    (parseN 1 [cstr "x", cstr "run"] (clapResetParser shortAndLongSub)).subcommand = none ∧
    (parseN 2 [cstr "x", cstr "run"] (clapResetParser shortAndLongSub)).subcommand = some 1 ∧
    (parseN 2 [cstr "x", cstr "run"] (clapResetParser shortAndLongSub)).subcommand ≠ some 0 ∧
    clapParsedSubcommand (parseN 2 [cstr "x", cstr "run"] (clapResetParser shortAndLongSub))
      (some (cstr "x")) = false :=
  ⟨by decide, by decide, by decide,
   (short_subcommand_never_active _
      (Reachable.step [cstr "x", cstr "run"] _
        (Reachable.step [cstr "x", cstr "run"] _ (Reachable.reset shortAndLongSub)))).2.1
      0 ⟨cstr "x"⟩ (by decide) (by decide),
   (short_subcommand_never_active _
      (Reachable.step [cstr "x", cstr "run"] _
        (Reachable.step [cstr "x", cstr "run"] _ (Reachable.reset shortAndLongSub)))).2.2.1
      (cstr "x") (by decide)⟩

end Clap
